import Mathlib

/-!
Remowork Sound Changer: the interception and resolution engine of `inject.js`.

A shallow embedding of the page script `src/inject.js`.

* JavaScript values that can reach the interception points are the type `JsValue`.
* Plain objects used as dictionaries (`config.sounds`, `pathToId`, `customSoundCache`) are
  lists of own properties in insertion order.  `JsObject.entries` reproduces the order of
  `Object.entries` (array-index keys first, ascending, then the other keys in insertion
  order), `JsObject.get` reproduces a property read, which also sees the members inherited
  from `Object.prototype`, and `JsObject.assign` reproduces `obj[key] = value` for a string
  value, which does nothing for the key `__proto__`.
* The closure variables `config`, `pathToId`, `customSoundCache` and `extensionBaseUrl` are the
  fields of `State`; every function that mutates them returns the new state.
* `new URL(urlStr, window.location.origin).pathname` is a platform function; it is the
  parameter `pathnameOf`, with `none` standing for a parse error.
* JavaScript strings are modelled by `String`; a configuration is typed (`Config`,
  `SoundConfig`), so that ill-typed payloads are outside the model.
* `JSON.parse` is a platform function; it is the parameter `jsonParse`, with `none` standing
  for a thrown `SyntaxError`, and its values are the type `ParsedPayload`.  `runScript` is the
  script body in front of `init`, with the uncaught exceptions as the outcome `raised`.
* `Howl` is the wrapper that `interceptHowler` installs, over the own properties of the
  options object; `runHowler` is the immediate interception followed by the interval timer,
  one step per timer period, over a schedule that tells when `window.Howl` is defined.
-/

namespace RemoworkSoundChanger

/-! ## JavaScript values and objects -/

/-- The JavaScript values an interception point can be called with. -/
inductive JsValue where
  | undefined
  | null
  | boolean (b : Bool)
  | number (n : Int)
  | string (s : String)
  | array (items : List JsValue)
  | object (label : String)
  deriving Repr

/-- Truthiness, the test behind `if (x)` and `!x`. -/
def JsValue.truthy : JsValue → Bool
  | .undefined => false
  | .null => false
  | .boolean b => b
  | .number n => n != 0
  | .string s => s != ""
  | .array _ => true
  | .object _ => true

/-- Truthiness of an optional string property (absent reads as `undefined`). -/
def strTruthy : Option String → Bool
  | some s => s != ""
  | none => false

/-- The call `s.endsWith(t)`. -/
def endsWith (s t : String) : Bool :=
  t.data.isSuffixOf s.data

/-- The own enumerable properties of a plain object, in insertion order. -/
abbrev JsObject (α : Type) := List (String × α)

/-- Numeric value of a string of decimal digits. -/
def digitsValue (cs : List Char) : Nat :=
  cs.foldl (fun n c => 10 * n + (c.toNat - 48)) 0

/-- A property key is an array index when it is the canonical decimal form of an integer
below `2^32 - 1`. -/
def isArrayIndex (k : String) : Bool :=
  match k.data with
  | [] => false
  | c :: cs =>
    (c :: cs).all (fun d => decide (48 ≤ d.toNat) && decide (d.toNat ≤ 57))
      && (c != '0' || cs.isEmpty)
      && decide (digitsValue (c :: cs) ≤ 4294967294)

/-- Insertion of an array-index property into a list sorted by numeric key. -/
def insertIndexed {α : Type} (e : String × α) : List (String × α) → List (String × α)
  | [] => [e]
  | x :: xs =>
    if digitsValue e.1.data < digitsValue x.1.data then e :: x :: xs
    else x :: insertIndexed e xs

/-- Array-index properties in ascending numeric order. -/
def sortIndexed {α : Type} : List (String × α) → List (String × α)
  | [] => []
  | e :: es => insertIndexed e (sortIndexed es)

/-- The result of `Object.entries(o)`: array-index keys in ascending order, then the
remaining keys in insertion order. -/
def JsObject.entries {α : Type} (o : JsObject α) : List (String × α) :=
  sortIndexed (o.filter (fun e => isArrayIndex e.1))
    ++ o.filter (fun e => !isArrayIndex e.1)

/-- Definition of an own property: an existing key keeps its position, a new key is
appended. -/
def JsObject.set {α : Type} (o : JsObject α) (k : String) (v : α) : JsObject α :=
  match o with
  | [] => [(k, v)]
  | (k1, v1) :: rest =>
    if k1 == k then (k, v) :: rest else (k1, v1) :: JsObject.set rest k v

/-- The assignment `o[k] = v` of a string `v` on an object created by `{}`: the key
`__proto__` reaches the inherited setter, which ignores a value that is not an object. -/
def JsObject.assign (o : JsObject String) (k : String) (v : String) : JsObject String :=
  if k == "__proto__" then o else JsObject.set o k v

/-- The object has an own property named `k`. -/
def hasKey {α : Type} (o : JsObject α) (k : String) : Prop :=
  ∃ v, (k, v) ∈ o

/-- Names of the members every plain object inherits from `Object.prototype`. -/
def objectPrototypeMembers : List String :=
  ["constructor", "__defineGetter__", "__defineSetter__", "hasOwnProperty",
   "__lookupGetter__", "__lookupSetter__", "isPrototypeOf", "propertyIsEnumerable",
   "toString", "valueOf", "__proto__", "toLocaleString"]

/-- Outcome of the property read `o[k]` on a plain object. -/
inductive Lookup (α : Type) where
  | own (v : α)
  | inherited (name : String)
  | absent

/-- The property read `o[k]`: own properties first, then `Object.prototype`. -/
def JsObject.get {α : Type} (o : JsObject α) (k : String) : Lookup α :=
  match List.lookup k o with
  | some v => .own v
  | none => if k ∈ objectPrototypeMembers then .inherited k else .absent

/-! ## Configuration -/

/-- One entry of `config.sounds`. -/
structure SoundConfig where
  path : Option String
  paths : Option (List String)
  mode : String
  customData : Option String
  presetFile : Option String
  deriving DecidableEq, Repr

/-- The configuration object `{ enabled, sounds }`. -/
structure Config where
  enabled : Bool
  sounds : JsObject SoundConfig
  deriving DecidableEq, Repr

/-- The closure state of the script after initialization. -/
structure State where
  config : Config
  pathToId : JsObject String
  customSoundCache : JsObject String
  extensionBaseUrl : Option String
  deriving DecidableEq, Repr

/-- The path `p` is the `path` of the sound or an entry of its `paths`. -/
def SoundConfig.hasPath (sc : SoundConfig) (p : String) : Prop :=
  sc.path = some p ∨ ∃ ps, sc.paths = some ps ∧ p ∈ ps

/-- The path `p` is one that the indexing loop assigns for the sound: its non-empty `path`
or any entry of its `paths`. -/
def SoundConfig.indexes (sc : SoundConfig) (p : String) : Prop :=
  (sc.path = some p ∧ p ≠ "") ∨ ∃ ps, sc.paths = some ps ∧ p ∈ ps

/-! ## Path resolver -/

/-- Body of the loop that fills `pathToId` for one sound (lines 33-46 and 295-306). -/
def indexSound (pathToId : JsObject String) (id : String) (soundConfig : SoundConfig) :
    JsObject String :=
  let withPath :=
    match soundConfig.path with
    | some path => if path != "" then JsObject.assign pathToId path id else pathToId
    | none => pathToId
  match soundConfig.paths with
  | some paths => paths.foldl (fun acc path => JsObject.assign acc path id) withPath
  | none => withPath

/-- The index `pathToId` computed from `config.sounds`, starting from the empty object. -/
def buildPathToId (sounds : JsObject SoundConfig) : JsObject String :=
  (JsObject.entries sounds).foldl (fun acc e => indexSound acc e.1 e.2) []

/-- The list-unwrapping `Array.isArray(url) ? url[0] : url` (line 58). -/
def urlStrOf (url : JsValue) : JsValue :=
  match url with
  | .array items => items.headD .undefined
  | v => v

/-- The function `getSoundIdFromUrl` (lines 54-75); `none` is `null`. -/
def getSoundIdFromUrl (pathnameOf : String → Option String) (pathToId : JsObject String)
    (url : JsValue) : Option String :=
  if !url.truthy then none
  else
    match urlStrOf url with
    | .string s =>
      match pathnameOf s with
      | some pathname =>
        ((JsObject.entries pathToId).find?
          (fun e => endsWith pathname e.1 || pathname == e.1)).map (fun e => e.2)
      | none => none
    | _ => none

/-! ## Source resolver -/

/-- The call `s.includes(t)`. -/
def includes (s t : List Char) : Bool :=
  match s with
  | [] => t.isEmpty
  | c :: cs => t.isPrefixOf (c :: cs) || includes cs t

/-- The call `s.replace(t, "")` for a string pattern: the first occurrence of `t` is
removed. -/
def removeFirst (s t : List Char) : List Char :=
  match s with
  | [] => []
  | c :: cs => if t.isPrefixOf (c :: cs) then (c :: cs).drop t.length else c :: removeFirst cs t

/-- The function `getExtensionBaseUrl` (lines 80-88) over the `src` of the document's script
elements, in document order (a script without source has `src` equal to the empty string). -/
def getExtensionBaseUrl (scripts : List String) : Option String :=
  match scripts.find? (fun src => src != "" && includes src.data "inject.js".data) with
  | some src => some (String.mk (removeFirst src.data "inject.js".data))
  | none => none

/-- Characters that `encodeURIComponent` leaves unescaped: ASCII letters, digits and
`- _ . ! ~ * ' ( )`. -/
def uriUnreserved (c : Char) : Bool :=
  let n := c.toNat
  (decide (65 ≤ n) && decide (n ≤ 90)) || (decide (97 ≤ n) && decide (n ≤ 122))
    || (decide (48 ≤ n) && decide (n ≤ 57))
    || n == 45 || n == 95 || n == 46 || n == 33 || n == 126 || n == 42 || n == 39
    || n == 40 || n == 41

/-- The UTF-8 encoding of a code point. -/
def utf8Bytes (n : Nat) : List Nat :=
  if n < 128 then [n]
  else if n < 2048 then [192 + n / 64, 128 + n % 64]
  else if n < 65536 then [224 + n / 4096, 128 + n / 64 % 64, 128 + n % 64]
  else [240 + n / 262144, 128 + n / 4096 % 64, 128 + n / 64 % 64, 128 + n % 64]

/-- An upper-case hexadecimal digit. -/
def hexDigit (n : Nat) : Char :=
  if n < 10 then Char.ofNat (48 + n) else Char.ofNat (55 + n)

/-- The escape `%XY` of one byte. -/
def percentByte (b : Nat) : List Char :=
  ['%', hexDigit (b / 16), hexDigit (b % 16)]

/-- The platform function `encodeURIComponent` on a well-formed string. -/
def encodeURIComponent (s : String) : String :=
  String.mk (s.data.flatMap
    (fun c => if uriUnreserved c then [c] else (utf8Bytes c.toNat).flatMap percentByte))

/-- The property read `customSoundCache[soundId]` as a JavaScript value. -/
def cacheRead (customSoundCache : JsObject String) (soundId : String) : JsValue :=
  match JsObject.get customSoundCache soundId with
  | .own v => .string v
  | .inherited name => .object ("Object.prototype." ++ name)
  | .absent => .undefined

/-- The function `getCustomSoundUrl` (lines 95-117): the returned value and the state after
the call.  A member inherited by `config.sounds` is a truthy value without `mode`. -/
def getCustomSoundUrl (st : State) (soundId : String) : JsValue × State :=
  match JsObject.get st.config.sounds soundId with
  | .own soundConfig =>
    if soundConfig.mode == "custom" && strTruthy soundConfig.customData then
      let customData := soundConfig.customData.getD ""
      let cache :=
        if !(cacheRead st.customSoundCache soundId).truthy then
          JsObject.assign st.customSoundCache soundId customData
        else st.customSoundCache
      (cacheRead cache soundId, { st with customSoundCache := cache })
    else if soundConfig.mode == "preset" && strTruthy soundConfig.presetFile
        && strTruthy st.extensionBaseUrl then
      let category := soundId
      let presetUrl := st.extensionBaseUrl.getD "" ++ "sounds/" ++ category ++ "/"
        ++ encodeURIComponent (soundConfig.presetFile.getD "")
      (.string presetUrl, st)
    else (.null, st)
  | .inherited _ => (.null, st)
  | .absent => (.null, st)

/-! ## Interception: the `Audio` constructor -/

/-- The overridden constructor `window.Audio` (lines 125-137): the argument handed to
`OriginalAudio` and the state after the call. -/
def Audio (pathnameOf : String → Option String) (st : State) (src : JsValue) :
    JsValue × State :=
  match getSoundIdFromUrl pathnameOf st.pathToId src with
  | some soundId =>
    if soundId != "" then
      let r := getCustomSoundUrl st soundId
      if r.1.truthy then (r.1, r.2) else (src, r.2)
    else (src, st)
  | none => (src, st)

/-! ## Live reconfiguration -/

/-- The tag a live-update message must carry in `data.source`. -/
def discriminator : String := "remowork-sound-changer-content"

/-- The `config` object of a live-update message: each field may be missing. -/
structure ConfigUpdate where
  enabled : Option Bool
  sounds : Option (JsObject SoundConfig)

/-- The `data` of a message event. -/
structure MessageData where
  source : Option String
  type : Option String
  config : Option ConfigUpdate

/-- A message event: whether `event.source === window`, and `event.data` (`none` when it
is falsy). -/
structure MessageEvent where
  sourceIsWindow : Bool
  data : Option MessageData

/-- The call `Object.assign(config, update)`. -/
def objectAssign (config : Config) (update : ConfigUpdate) : Config :=
  { enabled := update.enabled.getD config.enabled
    sounds := update.sounds.getD config.sounds }

/-- The `message` listener (lines 283-313). -/
def onMessage (st : State) (event : MessageEvent) : State :=
  if !event.sourceIsWindow then st
  else
    match event.data with
    | none => st
    | some data =>
      if data.source != some discriminator then st
      else if data.type == some "CONFIG_UPDATED" then
        match data.config with
        | some update =>
          let config := objectAssign st.config update
          { st with
            config := config
            pathToId := buildPathToId config.sounds
            customSoundCache := [] }
        | none => st
      else st

/-! ## Initialization and reachable states -/

/-- Initialization (lines 14-49 and 90) from the parsed embedded configuration and the
script sources of the document; `none` when the script returns at the `enabled` gate. -/
def init (config : Config) (scripts : List String) : Option State :=
  if !config.enabled then none
  else
    some
      { config := config
        pathToId := buildPathToId config.sounds
        customSoundCache := []
        extensionBaseUrl := getExtensionBaseUrl scripts }

/-- States reachable from initialization by resolutions and message events. -/
inductive Reachable : State → Prop where
  | init (config : Config) (scripts : List String) (st : State)
      (h : init config scripts = some st) : Reachable st
  | resolve (st : State) (soundId : String) (h : Reachable st) :
      Reachable (getCustomSoundUrl st soundId).2
  | message (st : State) (event : MessageEvent) (h : Reachable st) :
      Reachable (onMessage st event)

/-- The cache invariant: an own entry of `customSoundCache` is the non-empty `customData` of
a sound whose mode is `custom`, under a key that is not an inherited member name. -/
def cacheInv (st : State) : Prop :=
  ∀ k v, List.lookup k st.customSoundCache = some v →
    k ∉ objectPrototypeMembers ∧ v ≠ ""
      ∧ ∃ sc, List.lookup k st.config.sounds = some sc ∧ sc.mode = "custom"
          ∧ sc.customData = some v

/-! ## Initialization from the embedded payload -/

/-- The `sounds` property of a parsed payload object: missing, `null`, or a mapping of sound
entries. -/
inductive SoundsField where
  | missing
  | null
  | mapping (sounds : JsObject SoundConfig)
  deriving DecidableEq, Repr

/-- The value returned by `JSON.parse` on the embedded payload: `null`, a boolean, number or
string, an array, or an object given by the truthiness of its `enabled` property and its
`sounds` property. -/
inductive ParsedPayload where
  | null
  | primitive
  | array
  | object (enabled : Bool) (sounds : SoundsField)
  deriving DecidableEq, Repr

/-- How the first execution of the script ends: an uncaught `TypeError`, the return at the
`enabled` gate, or a running state with every interception installed.  Nothing is installed
in the first two cases. -/
inductive InitOutcome where
  | raised
  | disabled
  | running (st : State)
  deriving DecidableEq, Repr

/-- The initial value `{ enabled: false, sounds: {} }` of `config` (line 14). -/
def defaultConfig : ParsedPayload :=
  .object false (.mapping [])

/-- Lines 14-22: the configuration after reading `dataset.config` (`none` when the carrier
element or its attribute is missing); `jsonParse` is `JSON.parse`, `none` standing for a
thrown `SyntaxError`, which the `try` block catches. -/
def readConfig (jsonParse : String → Option ParsedPayload) (datasetConfig : Option String) :
    ParsedPayload :=
  match datasetConfig with
  | some text =>
    if text != "" then
      match jsonParse text with
      | some value => value
      | none => defaultConfig
    else defaultConfig
  | none => defaultConfig

/-- The script body from line 14 on: `config.enabled` on `null` throws, a falsy `enabled`
returns, `Object.entries(config.sounds)` on `undefined` or `null` throws, and otherwise
initialization proceeds as `init`. -/
def runScript (jsonParse : String → Option ParsedPayload) (datasetConfig : Option String)
    (scripts : List String) : InitOutcome :=
  match readConfig jsonParse datasetConfig with
  | .null => .raised
  | .primitive => .disabled
  | .array => .disabled
  | .object enabled sounds =>
    if !enabled then .disabled
    else
      match sounds with
      | .missing => .raised
      | .null => .raised
      | .mapping sounds =>
        match init { enabled := enabled, sounds := sounds } scripts with
        | some st => .running st
        | none => .disabled

/-! ## Interception: the `Howl` constructor -/

/-- The own enumerable properties of the options object handed to `Howl`. -/
abbrev HowlOptions := JsObject JsValue

/-- The format list `['mp3', 'wav', 'ogg', 'webm']` (line 189). -/
def howlFormats : JsValue :=
  .array [.string "mp3", .string "wav", .string "ogg", .string "webm"]

/-- The call `Object.assign(target, source)` on plain objects: every own property of the
source is set on the target, in the order of its keys; the key `__proto__` reaches the
inherited setter and creates no own property. -/
def assignAll (target source : JsObject JsValue) : JsObject JsValue :=
  (JsObject.entries source).foldl
    (fun acc e => if e.1 == "__proto__" then acc else JsObject.set acc e.1 e.2) target

/-- The list `Array.isArray(options.src) ? options.src : [options.src]` (line 179). -/
def srcArrayOf (src : JsValue) : List JsValue :=
  match src with
  | .array items => items
  | v => [v]

/-- The wrapper installed as `window.Howl` (lines 177-196): the options handed to
`OriginalHowl` (`none` for a falsy argument) and the state after the call. -/
def Howl (pathnameOf : String → Option String) (st : State) (options : Option HowlOptions) :
    Option HowlOptions × State :=
  match options with
  | none => (none, st)
  | some opts =>
    let src := (List.lookup "src" opts).getD .undefined
    if src.truthy then
      let srcArray := srcArrayOf src
      match getSoundIdFromUrl pathnameOf st.pathToId (srcArray.headD .undefined) with
      | some soundId =>
        if soundId != "" then
          let r := getCustomSoundUrl st soundId
          if r.1.truthy then
            (some (assignAll (assignAll [] opts)
              [("src", .array [r.1]), ("format", howlFormats)]), r.2)
          else (some opts, r.2)
        else (some opts, st)
      | none => (some opts, st)
    else (some opts, st)

/-! ## Waiting for Howler.js -/

/-- The part of the page state that the Howler interception touches: how many times
`window.Howl` has been replaced by a wrapper, whether the interval timer is active, the
counter `attempts`, and how many times the fallback message was logged. -/
structure HowlerState where
  wraps : Nat
  polling : Bool
  attempts : Nat
  notFoundLogs : Nat
  deriving DecidableEq, Repr

/-- The constant `maxAttempts` (line 214). -/
def maxAttempts : Nat := 50

/-- The Howler state before the script runs: the page's own `window.Howl`, no timer. -/
def howlerStart : HowlerState :=
  { wraps := 0, polling := false, attempts := 0, notFoundLogs := 0 }

/-- The function `interceptHowler` (lines 170-208); `available` tells whether `window.Howl`
is defined at the time of the call. -/
def interceptHowler (available : Bool) (h : HowlerState) : Bool × HowlerState :=
  if !available then (false, h)
  else (true, { h with wraps := h.wraps + 1 })

/-- The immediate attempt of line 211, which starts the interval timer when it fails. -/
def startHowler (available : Bool) : HowlerState :=
  let r := interceptHowler available howlerStart
  if !r.1 then { r.2 with polling := true } else r.2

/-- One period of the interval timer (lines 215-223); a cleared timer runs nothing. -/
def pollTick (available : Bool) (h : HowlerState) : HowlerState :=
  if !h.polling then h
  else
    let attempts := h.attempts + 1
    let r := interceptHowler available { h with attempts := attempts }
    if r.1 || decide (attempts ≥ maxAttempts) then
      { r.2 with
        polling := false
        notFoundLogs :=
          if attempts ≥ maxAttempts then r.2.notFoundLogs + 1 else r.2.notFoundLogs }
    else r.2

/-- The Howler state after `n` timer periods, where `schedule 0` tells whether `window.Howl`
is defined at initialization and `schedule k` whether it is defined at the `k`-th period. -/
def runHowler (schedule : Nat → Bool) : Nat → HowlerState
  | 0 => startHowler (schedule 0)
  | n + 1 => pollTick (schedule (n + 1)) (runHowler schedule n)

/-- The invariant of the polling loop. -/
def howlerInv (h : HowlerState) : Prop :=
  h.attempts ≤ maxAttempts ∧ h.wraps ≤ 1 ∧ h.notFoundLogs ≤ 1
    ∧ (h.polling = true → h.wraps = 0 ∧ h.attempts < maxAttempts ∧ h.notFoundLogs = 0)
    ∧ (1 ≤ h.notFoundLogs → h.attempts = maxAttempts)

/-! ## A pathname function for worked examples -/

/-- Characters of a path up to the query or fragment. -/
def takePath (cs : List Char) : List Char :=
  cs.takeWhile (fun c => c != '?' && c != '#')

/-- Characters of the host names that `examplePathname` accepts: lower-case letters and the
dot. -/
def hostChar (c : Char) : Bool :=
  (decide (97 ≤ c.toNat) && decide (c.toNat ≤ 122)) || c == '.'

/-- Characters that the URL parser copies into the pathname as they are: letters, digits and
`/ - _ . ~`. -/
def pathChar (c : Char) : Bool :=
  let n := c.toNat
  (decide (65 ≤ n) && decide (n ≤ 90)) || (decide (97 ≤ n) && decide (n ≤ 122))
    || (decide (48 ≤ n) && decide (n ≤ 57))
    || n == 47 || n == 45 || n == 95 || n == 46 || n == 126

/-- The segments of a path, split at `/`. -/
def pathSegments (cs : List Char) : List (List Char) :=
  cs.foldr
    (fun c acc =>
      if c == '/' then [] :: acc
      else
        match acc with
        | [] => [[c]]
        | seg :: rest => (c :: seg) :: rest)
    [[]]

/-- Pathname of `new URL(u, origin)` for an input of the shape
`https://host/path?query#fragment` whose host is a name of lower-case letters and dots that
starts with a letter, and whose path holds only characters that the parser copies and no
segment `.` or `..`; every other input is outside this function and gives `none`. -/
def examplePathname (u : String) : Option String :=
  if "https://".data.isPrefixOf u.data then
    let afterScheme := u.data.drop 8
    let host := afterScheme.takeWhile (fun c => c != '/' && c != '?' && c != '#')
    let rest := afterScheme.dropWhile (fun c => c != '/' && c != '?' && c != '#')
    let path := takePath rest
    let hostOk :=
      match host with
      | [] => false
      | c :: cs => hostChar c && c != '.' && cs.all hostChar
    if hostOk && path.all pathChar
        && (pathSegments path).all (fun seg => seg != ['.'] && seg != ['.', '.']) then
      match path with
      | [] => some "/"
      | cs => some (String.mk cs)
    else none
  else none

/-! ## Worked examples -/

/-- The sound of the scenario of section 8 of the specification. -/
def scenarioSound : SoundConfig :=
  { path := some "/client/incoming.mp3"
    paths := none
    mode := "custom"
    customData := some "data:audio/mp3;base64,AAAA"
    presetFile := none }

/-- The configuration of the scenario of section 8 of the specification. -/
def scenarioConfig : Config :=
  { enabled := true, sounds := [("incoming", scenarioSound)] }

/-- A second sound whose path is a suffix of the path of `scenarioSound`. -/
def chimeSound : SoundConfig :=
  { path := some "incoming.mp3"
    paths := none
    mode := "original"
    customData := none
    presetFile := none }

/-- A configuration in which one pathname ends with the paths of two sounds. -/
def overlapConfig : Config :=
  { enabled := true, sounds := [("incoming", scenarioSound), ("chime", chimeSound)] }

/-- Script sources of a document into which the extension script was injected. -/
def exampleScripts : List String :=
  ["https://host/app.js", "chrome-extension://abcdef/inject.js"]

/-- The state right after initialization with `scenarioConfig`. -/
def scenarioState : State :=
  { config := scenarioConfig
    pathToId := [("/client/incoming.mp3", "incoming")]
    customSoundCache := []
    extensionBaseUrl := some "chrome-extension://abcdef/" }

/-- The scenario configuration with the empty string as the sound identifier. -/
def emptyIdConfig : Config :=
  { enabled := true, sounds := [("", scenarioSound)] }

/-- The state right after initialization with `emptyIdConfig`. -/
def emptyIdState : State :=
  { config := emptyIdConfig
    pathToId := [("/client/incoming.mp3", "")]
    customSoundCache := []
    extensionBaseUrl := some "chrome-extension://abcdef/" }

/-- A valid live update that only switches the configuration off. -/
def disableEvent : MessageEvent :=
  { sourceIsWindow := true
    data := some
      { source := some discriminator
        type := some "CONFIG_UPDATED"
        config := some { enabled := some false, sounds := none } } }

/-- A sound switched back to `original` while its custom data is still stored. -/
def revertedSound : SoundConfig :=
  { path := some "/client/incoming.mp3"
    paths := none
    mode := "original"
    customData := some "data:audio/mp3;base64,AAAA"
    presetFile := some "chime1.mp3" }

/-- A running state whose only sound is `revertedSound`, with a stale cache entry. -/
def revertedState : State :=
  { config := { enabled := true, sounds := [("incoming", revertedSound)] }
    pathToId := [("/client/incoming.mp3", "incoming")]
    customSoundCache := [("incoming", "data:audio/mp3;base64,AAAA")]
    extensionBaseUrl := some "chrome-extension://abcdef/" }

/-- The scenario configuration with the sound stored under the identifier `constructor`. -/
def constructorConfig : Config :=
  { enabled := true, sounds := [("constructor", scenarioSound)] }

/-- The state right after initialization with `constructorConfig`. -/
def constructorState : State :=
  { config := constructorConfig
    pathToId := [("/client/incoming.mp3", "constructor")]
    customSoundCache := []
    extensionBaseUrl := some "chrome-extension://abcdef/" }

/-- The preset sound of the second scenario of section 8 of the specification. -/
def presetSound : SoundConfig :=
  { path := some "/client/doorchime.mp3"
    paths := none
    mode := "preset"
    customData := none
    presetFile := some "chime1.mp3" }

/-- The state right after initialization with the preset scenario. -/
def presetState : State :=
  { config := { enabled := true, sounds := [("doorchime", presetSound)] }
    pathToId := [("/client/doorchime.mp3", "doorchime")]
    customSoundCache := []
    extensionBaseUrl := some "chrome-extension://abcdef/" }

/-- A valid live update with the given configuration object. -/
def updateEvent (update : ConfigUpdate) : MessageEvent :=
  { sourceIsWindow := true
    data := some
      { source := some discriminator
        type := some "CONFIG_UPDATED"
        config := some update } }

/-- A live update that replaces the path of the scenario sound by `incoming.mp3`. -/
def shortenPathUpdate : ConfigUpdate :=
  { enabled := none
    sounds := some [("incoming", { scenarioSound with path := some "incoming.mp3" })] }

/-- A live update that replaces the path of the scenario sound by `/client/ring.mp3`. -/
def renamePathUpdate : ConfigUpdate :=
  { enabled := none
    sounds := some [("incoming", { scenarioSound with path := some "/client/ring.mp3" })] }

/-- A live update that replaces the custom data of the scenario sound. -/
def newDataUpdate : ConfigUpdate :=
  { enabled := none
    sounds := some
      [("incoming", { scenarioSound with customData := some "data:audio/mp3;base64,BBBB" })] }

/-- A live update that replaces the custom data of the sound `constructor`. -/
def constructorDataUpdate : ConfigUpdate :=
  { enabled := none
    sounds := some
      [("constructor",
        { scenarioSound with customData := some "data:audio/mp3;base64,BBBB" })] }

/-- The same valid-looking payload as `disableEvent`, sent from another window. -/
def foreignEvent : MessageEvent :=
  { disableEvent with sourceIsWindow := false }

/-- The values of `JSON.parse` on the payload texts of the worked examples; any other text
is outside this function and gives `none`. -/
def exampleJsonParse (text : String) : Option ParsedPayload :=
  if text == "null" then some .null
  else if text == "\x7b\"enabled\":true\x7d" then some (.object true .missing)
  else if text == "\x7b\"enabled\":true,\"sounds\":null\x7d" then some (.object true .null)
  else none

/-- Options with two sources for the scenario sound and one other field. -/
def twoSourceOptions : HowlOptions :=
  [("src", .array [.string "https://host/client/incoming.mp3",
      .string "https://host/client/incoming.ogg"]),
   ("volume", .number 1)]

/-- Options with a single source string for the scenario sound and two other fields. -/
def oneSourceOptions : HowlOptions :=
  [("src", .string "https://host/client/incoming.mp3"), ("loop", .boolean true),
   ("format", .array [.string "mp3"])]

/-- A schedule on which `window.Howl` becomes defined at the fiftieth timer period. -/
def lateSchedule (k : Nat) : Bool :=
  decide (50 ≤ k)

/-- A schedule on which `window.Howl` becomes defined at the third timer period. -/
def earlySchedule (k : Nat) : Bool :=
  decide (3 ≤ k)

/-! ## Lemmas on objects -/

theorem mem_insertIndexed {α : Type} (e x : String × α) (l : List (String × α)) :
    x ∈ insertIndexed e l ↔ x = e ∨ x ∈ l := by
  induction l with
  | nil => simp [insertIndexed]
  | cons y ys ih =>
    unfold insertIndexed
    split
    · simp
    · simp only [List.mem_cons, ih]
      tauto

theorem mem_sortIndexed {α : Type} (x : String × α) (l : List (String × α)) :
    x ∈ sortIndexed l ↔ x ∈ l := by
  induction l with
  | nil => simp [sortIndexed]
  | cons y ys ih => simp [sortIndexed, mem_insertIndexed, ih]

theorem mem_entries {α : Type} (x : String × α) (o : JsObject α) :
    x ∈ JsObject.entries o ↔ x ∈ o := by
  unfold JsObject.entries
  simp only [List.mem_append, mem_sortIndexed, List.mem_filter]
  constructor
  · rintro (h | h) <;> exact h.1
  · intro h
    cases hx : isArrayIndex x.1
    · right; simp [h, hx]
    · left; simp [h, hx]

theorem mem_set {α : Type} (o : JsObject α) (k : String) (v : α) (x : String × α)
    (h : x ∈ JsObject.set o k v) : x = (k, v) ∨ x ∈ o := by
  induction o with
  | nil => simpa [JsObject.set] using h
  | cons y ys ih =>
    obtain ⟨k1, v1⟩ := y
    unfold JsObject.set at h
    split at h
    · rcases List.mem_cons.1 h with h | h
      · exact Or.inl h
      · exact Or.inr (List.mem_cons_of_mem _ h)
    · rcases List.mem_cons.1 h with h | h
      · exact Or.inr (by simp [h])
      · rcases ih h with h | h
        · exact Or.inl h
        · exact Or.inr (List.mem_cons_of_mem _ h)

theorem set_mem_self {α : Type} (o : JsObject α) (k : String) (v : α) :
    (k, v) ∈ JsObject.set o k v := by
  induction o with
  | nil => simp [JsObject.set]
  | cons y ys ih =>
    obtain ⟨k1, v1⟩ := y
    unfold JsObject.set
    split
    · simp
    · exact List.mem_cons_of_mem _ ih

theorem hasKey_set {α : Type} (o : JsObject α) (k : String) (v : α) (k2 : String)
    (h : hasKey o k2) : hasKey (JsObject.set o k v) k2 := by
  induction o with
  | nil => obtain ⟨w, hw⟩ := h; simp at hw
  | cons y ys ih =>
    obtain ⟨k1, v1⟩ := y
    obtain ⟨w, hw⟩ := h
    unfold JsObject.set
    split
    · rename_i hk
      rcases List.mem_cons.1 hw with hw | hw
      · have hk1 : k1 = k := by simpa using hk
        have hk2 : k2 = k1 := (Prod.mk.inj hw).1
        exact ⟨v, by simp [hk2, hk1]⟩
      · exact ⟨w, List.mem_cons_of_mem _ hw⟩
    · rcases List.mem_cons.1 hw with hw | hw
      · exact ⟨w, by simp [hw]⟩
      · obtain ⟨w2, hw2⟩ := ih ⟨w, hw⟩
        exact ⟨w2, List.mem_cons_of_mem _ hw2⟩

theorem mem_assign (o : JsObject String) (k v : String) (x : String × String)
    (h : x ∈ JsObject.assign o k v) : x = (k, v) ∨ x ∈ o := by
  unfold JsObject.assign at h
  split at h
  · exact Or.inr h
  · exact mem_set o k v x h

theorem hasKey_assign (o : JsObject String) (k v k2 : String) (h : hasKey o k2) :
    hasKey (JsObject.assign o k v) k2 := by
  unfold JsObject.assign
  split
  · exact h
  · exact hasKey_set o k v k2 h

theorem hasKey_assign_self (o : JsObject String) (k v : String) (hk : k ≠ "__proto__") :
    hasKey (JsObject.assign o k v) k := by
  unfold JsObject.assign
  rw [if_neg (by simpa using hk)]
  exact ⟨v, set_mem_self o k v⟩

/-! ## Lemmas on the index -/

theorem indexes_hasPath (sc : SoundConfig) (p : String) (h : sc.indexes p) : sc.hasPath p := by
  rcases h with ⟨h, _⟩ | h
  · exact Or.inl h
  · exact Or.inr h

theorem mem_foldl_assign (id : String) (ps : List String) (base : JsObject String)
    (x : String × String)
    (h : x ∈ ps.foldl (fun acc path => JsObject.assign acc path id) base) :
    x ∈ base ∨ (x.2 = id ∧ x.1 ∈ ps) := by
  induction ps generalizing base with
  | nil => exact Or.inl h
  | cons p ps ih =>
    rcases ih _ h with h1 | ⟨h1, h2⟩
    · rcases mem_assign base p id x h1 with h3 | h3
      · right; simp [h3]
      · exact Or.inl h3
    · exact Or.inr ⟨h1, List.mem_cons_of_mem _ h2⟩

theorem hasKey_foldl_assign (id : String) (ps : List String) (base : JsObject String)
    (k : String) (h : hasKey base k) :
    hasKey (ps.foldl (fun acc path => JsObject.assign acc path id) base) k := by
  induction ps generalizing base with
  | nil => exact h
  | cons p ps ih => exact ih _ (hasKey_assign base p id k h)

theorem hasKey_foldl_assign_self (id : String) (ps : List String) (base : JsObject String)
    (p : String) (hp : p ∈ ps) (hproto : p ≠ "__proto__") :
    hasKey (ps.foldl (fun acc path => JsObject.assign acc path id) base) p := by
  induction ps generalizing base with
  | nil => simp at hp
  | cons q ps ih =>
    rcases List.mem_cons.1 hp with h | h
    · subst h
      exact hasKey_foldl_assign id ps _ p (hasKey_assign_self base p id hproto)
    · exact ih _ h

theorem mem_indexSound (idx : JsObject String) (id : String) (sc : SoundConfig)
    (x : String × String) (h : x ∈ indexSound idx id sc) :
    x ∈ idx ∨ (x.2 = id ∧ sc.indexes x.1) := by
  unfold indexSound at h
  have hbase : ∀ y, y ∈ (match sc.path with
      | some path => if path != "" then JsObject.assign idx path id else idx
      | none => idx) → y ∈ idx ∨ (y.2 = id ∧ sc.indexes y.1) := by
    intro y hy
    cases hpath : sc.path with
    | none => rw [hpath] at hy; exact Or.inl hy
    | some p =>
      rw [hpath] at hy
      simp only at hy
      split at hy
      · rename_i hne
        rcases mem_assign idx p id y hy with h1 | h1
        · right; subst h1; exact ⟨rfl, Or.inl ⟨hpath, by simpa using hne⟩⟩
        · exact Or.inl h1
      · exact Or.inl hy
  cases hps : sc.paths with
  | none => rw [hps] at h; exact hbase x h
  | some ps =>
    rw [hps] at h
    rcases mem_foldl_assign id ps _ x h with h1 | ⟨h1, h2⟩
    · exact hbase x h1
    · exact Or.inr ⟨h1, Or.inr ⟨ps, hps, h2⟩⟩

theorem hasKey_indexSound (idx : JsObject String) (id : String) (sc : SoundConfig)
    (k : String) (h : hasKey idx k) : hasKey (indexSound idx id sc) k := by
  unfold indexSound
  have hbase : hasKey (match sc.path with
      | some path => if path != "" then JsObject.assign idx path id else idx
      | none => idx) k := by
    cases sc.path with
    | none => exact h
    | some p =>
      simp only
      split
      · exact hasKey_assign idx p id k h
      · exact h
  cases sc.paths with
  | none => exact hbase
  | some ps => exact hasKey_foldl_assign id ps _ k hbase

theorem hasKey_indexSound_self (idx : JsObject String) (id : String) (sc : SoundConfig)
    (p : String) (hp : sc.indexes p) (hproto : p ≠ "__proto__") :
    hasKey (indexSound idx id sc) p := by
  unfold indexSound
  rcases hp with ⟨hpath, hne⟩ | ⟨ps, hps, hmem⟩
  · have hbase : hasKey (match sc.path with
        | some path => if path != "" then JsObject.assign idx path id else idx
        | none => idx) p := by
      rw [hpath]
      simp only
      rw [if_pos (by simpa using hne)]
      exact hasKey_assign_self idx p id hproto
    cases sc.paths with
    | none => exact hbase
    | some ps => exact hasKey_foldl_assign id ps _ p hbase
  · rw [hps]
    exact hasKey_foldl_assign_self id ps _ p hmem hproto

theorem mem_foldl_indexSound (l : List (String × SoundConfig)) (acc : JsObject String)
    (x : String × String)
    (h : x ∈ l.foldl (fun acc e => indexSound acc e.1 e.2) acc) :
    x ∈ acc ∨ ∃ sc, (x.2, sc) ∈ l ∧ sc.indexes x.1 := by
  induction l generalizing acc with
  | nil => exact Or.inl h
  | cons e es ih =>
    rcases ih _ h with h1 | ⟨sc, h1, h2⟩
    · rcases mem_indexSound acc e.1 e.2 x h1 with h3 | ⟨h3, h4⟩
      · exact Or.inl h3
      · exact Or.inr ⟨e.2, by simp [h3], h4⟩
    · exact Or.inr ⟨sc, List.mem_cons_of_mem _ h1, h2⟩

theorem hasKey_foldl_indexSound (l : List (String × SoundConfig)) (acc : JsObject String)
    (k : String) (h : hasKey acc k) :
    hasKey (l.foldl (fun acc e => indexSound acc e.1 e.2) acc) k := by
  induction l generalizing acc with
  | nil => exact h
  | cons e es ih => exact ih _ (hasKey_indexSound acc e.1 e.2 k h)

theorem hasKey_foldl_indexSound_self (l : List (String × SoundConfig))
    (acc : JsObject String) (s : String) (sc : SoundConfig) (p : String)
    (hs : (s, sc) ∈ l) (hp : sc.indexes p) (hproto : p ≠ "__proto__") :
    hasKey (l.foldl (fun acc e => indexSound acc e.1 e.2) acc) p := by
  induction l generalizing acc with
  | nil => simp at hs
  | cons e es ih =>
    rcases List.mem_cons.1 hs with h | h
    · subst h
      exact hasKey_foldl_indexSound es _ p (hasKey_indexSound_self acc s sc p hp hproto)
    · exact ih _ h

/-- Every entry of the index comes from a configured path of the sound it names. -/
theorem buildPathToId_sound (sounds : JsObject SoundConfig) (k v : String)
    (h : (k, v) ∈ buildPathToId sounds) : ∃ sc, (v, sc) ∈ sounds ∧ sc.indexes k := by
  rcases mem_foldl_indexSound _ [] (k, v) h with h1 | ⟨sc, h1, h2⟩
  · simp at h1
  · exact ⟨sc, (mem_entries _ _).1 h1, h2⟩

/-- Every path the loop assigns is a key of the index, `__proto__` apart. -/
theorem buildPathToId_hasKey (sounds : JsObject SoundConfig) (s : String) (sc : SoundConfig)
    (p : String) (hs : (s, sc) ∈ sounds) (hp : sc.indexes p) (hproto : p ≠ "__proto__") :
    hasKey (buildPathToId sounds) p :=
  hasKey_foldl_indexSound_self _ [] s sc p ((mem_entries _ _).2 hs) hp hproto

/-- What `getSoundIdFromUrl` computes for a non-empty string that parses. -/
theorem getSoundIdFromUrl_string (pathnameOf : String → Option String)
    (pathToId : JsObject String) (u pn : String) (hu : u ≠ "") (hpn : pathnameOf u = some pn) :
    getSoundIdFromUrl pathnameOf pathToId (.string u)
      = ((JsObject.entries pathToId).find?
          (fun e => endsWith pn e.1 || pn == e.1)).map (fun e => e.2) := by
  simp [getSoundIdFromUrl, JsValue.truthy, urlStrOf, hu, hpn]

theorem endsWith_of_eq (pn p : String) (h : pn = p) : endsWith pn p = true := by
  subst h
  simp [endsWith]

/-- A matching entry of the index makes the lookup loop return some matching entry. -/
theorem index_find_some (idx : JsObject String) (pn p v : String) (hv : (p, v) ∈ idx)
    (hends : endsWith pn p = true) :
    ∃ e, (JsObject.entries idx).find? (fun e => endsWith pn e.1 || pn == e.1) = some e
      ∧ e ∈ idx ∧ endsWith pn e.1 = true := by
  cases hfind : (JsObject.entries idx).find? (fun e => endsWith pn e.1 || pn == e.1) with
  | none =>
    have hnone := List.find?_eq_none.1 hfind (p, v) ((mem_entries _ _).2 hv)
    simp [hends] at hnone
  | some e =>
    refine ⟨e, rfl, (mem_entries _ _).1 (List.mem_of_find?_eq_some hfind), ?_⟩
    have hpred := List.find?_some hfind
    simp only [Bool.or_eq_true, beq_iff_eq] at hpred
    rcases hpred with h | h
    · exact h
    · exact endsWith_of_eq pn e.1 h

/-- A resolved identifier names a sound with an indexed path that the pathname ends with. -/
theorem getSoundIdFromUrl_sound (pathnameOf : String → Option String)
    (sounds : JsObject SoundConfig) (url : JsValue) (s : String)
    (h : getSoundIdFromUrl pathnameOf (buildPathToId sounds) url = some s) :
    ∃ u pn sc q, urlStrOf url = .string u ∧ pathnameOf u = some pn ∧ (s, sc) ∈ sounds
      ∧ sc.indexes q ∧ endsWith pn q = true := by
  unfold getSoundIdFromUrl at h
  split at h
  · simp at h
  · split at h
    · rename_i u hu
      split at h
      · rename_i pn hpn
        cases hfind : (JsObject.entries (buildPathToId sounds)).find?
            (fun e => endsWith pn e.1 || pn == e.1) with
        | none => simp [hfind] at h
        | some e =>
          simp only [hfind, Option.map_some', Option.some.injEq] at h
          have hmem := (mem_entries _ _).1 (List.mem_of_find?_eq_some hfind)
          have hpred := List.find?_some hfind
          have hends : endsWith pn e.1 = true := by
            simp only [Bool.or_eq_true, beq_iff_eq] at hpred
            rcases hpred with h1 | h1
            · exact h1
            · exact endsWith_of_eq pn e.1 h1
          obtain ⟨sc, hsc, hq⟩ := buildPathToId_sound sounds e.1 e.2 hmem
          exact ⟨u, pn, sc, e.1, hu, hpn, h ▸ hsc, hq, hends⟩
      · simp at h
    · simp at h

/-! ## Path resolution (C1, C2) -/

/-- C1 (amended): for every configuration, every sound `s` in it and every path `p` that the
index holds for `s` (its non-empty `path` or an entry of its `paths`, the key `__proto__`
apart), every non-empty candidate URL string whose parsed pathname equals `p` or ends with
`p` is resolved by `getSoundIdFromUrl`, over the index built from that configuration, to
`s`, provided no other sound has an indexed path that the pathname ends with. -/
theorem getSoundIdFromUrl_resolves_configured_path
    (pathnameOf : String → Option String) (cfg : Config) (s : String) (sc : SoundConfig)
    (p u pn : String)
    (hs : (s, sc) ∈ cfg.sounds) (hp : sc.indexes p) (hproto : p ≠ "__proto__")
    (hu : u ≠ "") (hpn : pathnameOf u = some pn)
    (hmatch : endsWith pn p = true ∨ pn = p)
    (hunique : ∀ t tc q, (t, tc) ∈ cfg.sounds → tc.indexes q → endsWith pn q = true → t = s) :
    getSoundIdFromUrl pathnameOf (buildPathToId cfg.sounds) (.string u) = some s := by
  rw [getSoundIdFromUrl_string pathnameOf _ u pn hu hpn]
  obtain ⟨v, hv⟩ := buildPathToId_hasKey cfg.sounds s sc p hs hp hproto
  have hends : endsWith pn p = true := by
    rcases hmatch with h | h
    · exact h
    · exact endsWith_of_eq pn p h
  obtain ⟨e, hfind, hmem, hends2⟩ := index_find_some _ pn p v hv hends
  obtain ⟨tc, htc, hq⟩ := buildPathToId_sound cfg.sounds e.1 e.2 hmem
  rw [hfind]
  simp [hunique e.2 tc e.1 htc hq hends2]

/-- C2: for every configuration and every candidate whose parsed pathname neither equals nor
ends with any `path` or `paths` entry of any sound, `getSoundIdFromUrl` returns `null`; the
same holds when the candidate does not parse or, after list-unwrapping, is not a string. -/
theorem getSoundIdFromUrl_null_without_match
    (pathnameOf : String → Option String) (cfg : Config) (url : JsValue)
    (h : (∀ u, urlStrOf url ≠ .string u)
      ∨ ∃ u, urlStrOf url = .string u
          ∧ (pathnameOf u = none
            ∨ ∃ pn, pathnameOf u = some pn
                ∧ ∀ s sc p, (s, sc) ∈ cfg.sounds → sc.hasPath p →
                    endsWith pn p = false ∧ pn ≠ p)) :
    getSoundIdFromUrl pathnameOf (buildPathToId cfg.sounds) url = none := by
  unfold getSoundIdFromUrl
  split
  · rfl
  · rcases h with h | ⟨u, hu, h⟩
    · split
      · rename_i s hs
        exact absurd hs (h s)
      · rfl
    · rw [hu]
      rcases h with h | ⟨pn, hpn, h⟩
      · simp [h]
      · simp only [hpn, Option.map_eq_none', List.find?_eq_none]
        intro e he
        obtain ⟨sc, hsc, hq⟩ := buildPathToId_sound cfg.sounds e.1 e.2 ((mem_entries _ _).1 he)
        have := h e.2 sc e.1 hsc (indexes_hasPath sc e.1 hq)
        simp [this.1, this.2]

/-- Witness of C1 (amended): the scenario configuration resolves its configured path. -/
theorem getSoundIdFromUrl_resolves_configured_path_witness :
    ("incoming", scenarioSound) ∈ scenarioConfig.sounds
    ∧ getSoundIdFromUrl examplePathname (buildPathToId scenarioConfig.sounds)
        (.string "https://host/client/incoming.mp3") = some "incoming" :=
  ⟨by decide,
   getSoundIdFromUrl_resolves_configured_path examplePathname scenarioConfig "incoming"
    scenarioSound "/client/incoming.mp3" "https://host/client/incoming.mp3"
    "/client/incoming.mp3" (by decide) (Or.inl ⟨rfl, by decide⟩) (by decide) (by decide)
    (by decide) (Or.inl (by decide))
    (by
      intro t tc q ht _ _
      simp only [scenarioConfig, List.mem_singleton, Prod.mk.injEq] at ht
      exact ht.1)⟩

/-- Counterexample to C1 as stated: the pathname `/client/incoming.mp3` ends with the path
`incoming.mp3` of the sound `chime`, yet the URL resolves to the sound `incoming`, whose
entry comes first in the index. -/
theorem getSoundIdFromUrl_overlap_counterexample :
    ("chime", chimeSound) ∈ overlapConfig.sounds
    ∧ chimeSound.path = some "incoming.mp3"
    ∧ examplePathname "https://host/client/incoming.mp3" = some "/client/incoming.mp3"
    ∧ endsWith "/client/incoming.mp3" "incoming.mp3" = true
    ∧ getSoundIdFromUrl examplePathname (buildPathToId overlapConfig.sounds)
        (.string "https://host/client/incoming.mp3") = some "incoming"
    ∧ getSoundIdFromUrl examplePathname (buildPathToId overlapConfig.sounds)
        (.string "https://host/client/incoming.mp3") ≠ some "chime" := by
  refine ⟨by decide, rfl, by decide, by decide, by decide, by decide⟩

/-- Witness of C2: a URL outside the scenario configuration resolves to `null`. -/
theorem getSoundIdFromUrl_null_without_match_witness :
    examplePathname "https://host/client/other.mp3" = some "/client/other.mp3"
    ∧ getSoundIdFromUrl examplePathname (buildPathToId scenarioConfig.sounds)
        (.string "https://host/client/other.mp3") = none :=
  ⟨by decide,
   getSoundIdFromUrl_null_without_match examplePathname scenarioConfig
    (.string "https://host/client/other.mp3")
    (Or.inr ⟨"https://host/client/other.mp3", rfl, Or.inr ⟨"/client/other.mp3", by decide,
      by
        intro s sc p hs hp
        simp only [scenarioConfig, List.mem_singleton, Prod.mk.injEq] at hs
        obtain ⟨_, rfl⟩ := hs
        rcases hp with hp | ⟨ps, hps, _⟩
        · have hp2 : p = "/client/incoming.mp3" := by
            simpa [scenarioSound] using hp.symm
          subst hp2
          exact ⟨by decide, by decide⟩
        · simp [scenarioSound] at hps⟩⟩)⟩

/-! ## Lemmas on the cache -/

theorem lookup_set_self {α : Type} (o : JsObject α) (k : String) (v : α) :
    List.lookup k (JsObject.set o k v) = some v := by
  induction o with
  | nil => simp [JsObject.set, List.lookup_cons]
  | cons y ys ih =>
    obtain ⟨k1, v1⟩ := y
    unfold JsObject.set
    split
    · simp
    · rename_i hk
      have hne : (k == k1) = false := by
        have : k1 ≠ k := by simpa using hk
        simpa using fun h => this h.symm
      rw [List.lookup_cons, hne]
      exact ih

theorem lookup_set_ne {α : Type} (o : JsObject α) (k k2 : String) (v : α) (h : k2 ≠ k) :
    List.lookup k2 (JsObject.set o k v) = List.lookup k2 o := by
  induction o with
  | nil =>
    have hne : (k2 == k) = false := by simpa using h
    simp [JsObject.set, List.lookup_cons, hne]
  | cons y ys ih =>
    obtain ⟨k1, v1⟩ := y
    unfold JsObject.set
    split
    · rename_i hk
      have hk1 : k1 = k := by simpa using hk
      subst hk1
      have hne : (k2 == k1) = false := by simpa using h
      simp [List.lookup_cons, hne]
    · simp only [List.lookup_cons, ih]

theorem get_eq_own {α : Type} (o : JsObject α) (k : String) (v : α) :
    JsObject.get o k = .own v ↔ List.lookup k o = some v := by
  unfold JsObject.get
  cases List.lookup k o with
  | none => by_cases hk : k ∈ objectPrototypeMembers <;> simp [hk]
  | some w => simp

theorem cacheRead_own (cache : JsObject String) (s v : String)
    (h : List.lookup s cache = some v) : cacheRead cache s = .string v := by
  simp [cacheRead, JsObject.get, h]

theorem cacheRead_none (cache : JsObject String) (s : String)
    (h : List.lookup s cache = none) :
    cacheRead cache s
      = if s ∈ objectPrototypeMembers then .object ("Object.prototype." ++ s)
        else .undefined := by
  unfold cacheRead JsObject.get
  rw [h]
  by_cases hk : s ∈ objectPrototypeMembers <;> simp [hk]

theorem assign_eq_set (o : JsObject String) (k v : String)
    (hk : k ∉ objectPrototypeMembers) : JsObject.assign o k v = JsObject.set o k v := by
  unfold JsObject.assign
  have : k ≠ "__proto__" := by
    intro h
    subst h
    exact hk (by decide)
  simp [this]

/-- The custom branch of `getCustomSoundUrl` (lines 100-105) on a cache whose own entry for
the sound, if any, is the sound's `customData`. -/
theorem customBranch_value (cache : JsObject String) (s d : String) (hd : d ≠ "")
    (hown : ∀ v, List.lookup s cache = some v → v = d ∧ s ∉ objectPrototypeMembers) :
    cacheRead (if !(cacheRead cache s).truthy then JsObject.assign cache s d else cache) s
      = if s ∈ objectPrototypeMembers then .object ("Object.prototype." ++ s)
        else .string d := by
  cases hl : List.lookup s cache with
  | some v =>
    obtain ⟨hv, hs⟩ := hown v hl
    subst hv
    simp [cacheRead_own cache s v hl, JsValue.truthy, hd, hs]
  | none =>
    by_cases hs : s ∈ objectPrototypeMembers
    · simp [cacheRead_none cache s hl, hs, JsValue.truthy]
    · have h1 : cacheRead cache s = .undefined := by simp [cacheRead_none cache s hl, hs]
      simp only [h1, JsValue.truthy, Bool.not_false, if_true, hs, if_false]
      rw [assign_eq_set cache s d hs]
      exact cacheRead_own _ s d (lookup_set_self cache s d)

/-- Under the cache invariant a sound in mode `custom` with non-empty `customData` resolves
to that data, unless its identifier names an inherited member of the cache object. -/
theorem getCustomSoundUrl_custom (st : State) (s : String) (sc : SoundConfig) (d : String)
    (hinv : cacheInv st) (hsc : List.lookup s st.config.sounds = some sc)
    (hmode : sc.mode = "custom") (hdata : sc.customData = some d) (hd : d ≠ "") :
    (getCustomSoundUrl st s).1
      = if s ∈ objectPrototypeMembers then .object ("Object.prototype." ++ s)
        else .string d := by
  have hget := (get_eq_own st.config.sounds s sc).2 hsc
  unfold getCustomSoundUrl
  rw [hget]
  simp only [hmode, hdata, strTruthy, beq_self_eq_true, Bool.true_and, bne_iff_ne, ne_eq,
    hd, not_false_eq_true, decide_True, if_true, Option.getD_some]
  apply customBranch_value st.customSoundCache s d hd
  intro v hv
  obtain ⟨h1, _, sc2, h3, _, h5⟩ := hinv s v hv
  rw [hsc] at h3
  cases h3
  rw [hdata] at h5
  exact ⟨(Option.some.inj h5).symm, h1⟩

theorem cacheInv_nil (st : State) (h : st.customSoundCache = []) : cacheInv st := by
  intro k v hv
  rw [h] at hv
  simp at hv

/-- The cache is a memoization: under the invariant the value returned by
`getCustomSoundUrl` is the one computed with an empty cache. -/
theorem getCustomSoundUrl_cache_irrelevant (st : State) (s : String) (hinv : cacheInv st) :
    (getCustomSoundUrl st s).1
      = (getCustomSoundUrl { st with customSoundCache := [] } s).1 := by
  cases hget : JsObject.get st.config.sounds s with
  | own sc =>
    have hsc := (get_eq_own _ _ _).1 hget
    by_cases hc : (sc.mode == "custom" && strTruthy sc.customData) = true
    · simp only [Bool.and_eq_true, beq_iff_eq] at hc
      obtain ⟨hmode, hdata⟩ := hc
      cases hcd : sc.customData with
      | none => simp [hcd, strTruthy] at hdata
      | some d =>
        have hd : d ≠ "" := by simpa [hcd, strTruthy] using hdata
        rw [getCustomSoundUrl_custom st s sc d hinv hsc hmode hcd hd,
          getCustomSoundUrl_custom { st with customSoundCache := [] } s sc d
            (cacheInv_nil _ rfl) hsc hmode hcd hd]
    · unfold getCustomSoundUrl
      simp only [hget, hc]
      simp only [Bool.false_eq_true, if_false]
      split <;> rfl
  | inherited n => simp [getCustomSoundUrl, hget]
  | absent => simp [getCustomSoundUrl, hget]

/-- The state after `getCustomSoundUrl`: unchanged, or the cache extended with the
sound's `customData` when the read of the cache was falsy. -/
theorem getCustomSoundUrl_snd (st : State) (s : String) :
    (getCustomSoundUrl st s).2 = st
      ∨ ∃ sc d, List.lookup s st.config.sounds = some sc ∧ sc.mode = "custom"
          ∧ sc.customData = some d ∧ d ≠ ""
          ∧ (cacheRead st.customSoundCache s).truthy = false
          ∧ (getCustomSoundUrl st s).2
              = { st with customSoundCache := JsObject.assign st.customSoundCache s d } := by
  cases hget : JsObject.get st.config.sounds s with
  | own sc =>
    have hsc := (get_eq_own _ _ _).1 hget
    by_cases hc : (sc.mode == "custom" && strTruthy sc.customData) = true
    · by_cases ht : (cacheRead st.customSoundCache s).truthy = true
      · left
        simp [getCustomSoundUrl, hget, hc, ht]
      · right
        simp only [Bool.and_eq_true, beq_iff_eq] at hc
        obtain ⟨hmode, hdata⟩ := hc
        cases hcd : sc.customData with
        | none => simp [hcd, strTruthy] at hdata
        | some d =>
          have hd : d ≠ "" := by simpa [hcd, strTruthy] using hdata
          refine ⟨sc, d, hsc, hmode, hcd, hd, by simpa using ht, ?_⟩
          simp [getCustomSoundUrl, hget, hmode, hcd, strTruthy, hd, ht]
    · left
      unfold getCustomSoundUrl
      simp only [hget, hc]
      simp only [Bool.false_eq_true, if_false]
      split <;> rfl
  | inherited n => left; simp [getCustomSoundUrl, hget]
  | absent => left; simp [getCustomSoundUrl, hget]

theorem cacheInv_getCustomSoundUrl (st : State) (s : String) (hinv : cacheInv st) :
    cacheInv (getCustomSoundUrl st s).2 := by
  rcases getCustomSoundUrl_snd st s with h | ⟨sc, d, hsc, hmode, hdata, hd, hfalsy, h⟩
  · rw [h]; exact hinv
  · rw [h]
    have hnone : List.lookup s st.customSoundCache = none := by
      cases hl : List.lookup s st.customSoundCache with
      | none => rfl
      | some v =>
        have hv := (hinv s v hl).2.1
        simp [cacheRead_own _ s v hl, JsValue.truthy, hv] at hfalsy
    have hs : s ∉ objectPrototypeMembers := by
      intro hmem
      simp [cacheRead_none _ s hnone, hmem, JsValue.truthy] at hfalsy
    intro k v hv
    simp only at hv
    rw [assign_eq_set _ s d hs] at hv
    by_cases hk : k = s
    · subst hk
      rw [lookup_set_self] at hv
      cases hv
      exact ⟨hs, hd, sc, hsc, hmode, hdata⟩
    · rw [lookup_set_ne _ s k d hk] at hv
      exact hinv k v hv

/-- The listener either leaves the state alone or installs a merged configuration, the
index rebuilt from it and an empty cache. -/
theorem onMessage_cases (st : State) (event : MessageEvent) :
    onMessage st event = st
      ∨ ∃ update, onMessage st event
          = { st with
              config := objectAssign st.config update
              pathToId := buildPathToId (objectAssign st.config update).sounds
              customSoundCache := [] } := by
  unfold onMessage
  split
  · exact Or.inl rfl
  · split
    · exact Or.inl rfl
    · split
      · exact Or.inl rfl
      · split
        · split
          · rename_i update _
            exact Or.inr ⟨update, rfl⟩
          · exact Or.inl rfl
        · exact Or.inl rfl

theorem cacheInv_onMessage (st : State) (event : MessageEvent) (hinv : cacheInv st) :
    cacheInv (onMessage st event) := by
  rcases onMessage_cases st event with h | ⟨update, h⟩
  · rw [h]; exact hinv
  · rw [h]; exact cacheInv_nil _ rfl

theorem cacheInv_init (config : Config) (scripts : List String) (st : State)
    (h : init config scripts = some st) : cacheInv st := by
  unfold init at h
  split at h
  · simp at h
  · cases h
    exact cacheInv_nil _ rfl

/-- Every reachable state satisfies the cache invariant. -/
theorem cacheInv_of_reachable (st : State) (h : Reachable st) : cacheInv st := by
  induction h with
  | init config scripts st h => exact cacheInv_init config scripts st h
  | resolve st soundId _ ih => exact cacheInv_getCustomSoundUrl st soundId ih
  | message st event _ ih => exact cacheInv_onMessage st event ih

/-- In every reachable state the index is the one built from the current configuration. -/
theorem pathToId_of_reachable (st : State) (h : Reachable st) :
    st.pathToId = buildPathToId st.config.sounds := by
  induction h with
  | init config scripts st h =>
    unfold init at h
    split at h
    · simp at h
    · cases h
      rfl
  | resolve st soundId _ ih =>
    rcases getCustomSoundUrl_snd st soundId with h | ⟨_, _, _, _, _, _, _, h⟩
    · rw [h]; exact ih
    · rw [h]; exact ih
  | message st event _ ih =>
    rcases onMessage_cases st event with h | ⟨update, h⟩
    · rw [h]; exact ih
    · rw [h]

/-- In a state that satisfies the cache invariant the value returned by `getCustomSoundUrl`
is `null` or truthy. -/
theorem getCustomSoundUrl_truthy (st : State) (s : String) (hinv : cacheInv st)
    (h : (getCustomSoundUrl st s).1 ≠ .null) : (getCustomSoundUrl st s).1.truthy = true := by
  cases hget : JsObject.get st.config.sounds s with
  | own sc =>
    have hsc := (get_eq_own _ _ _).1 hget
    by_cases hc : (sc.mode == "custom" && strTruthy sc.customData) = true
    · simp only [Bool.and_eq_true, beq_iff_eq] at hc
      obtain ⟨hmode, hdata⟩ := hc
      cases hcd : sc.customData with
      | none => simp [hcd, strTruthy] at hdata
      | some d =>
        have hd : d ≠ "" := by simpa [hcd, strTruthy] using hdata
        rw [getCustomSoundUrl_custom st s sc d hinv hsc hmode hcd hd]
        by_cases hs : s ∈ objectPrototypeMembers <;> simp [hs, JsValue.truthy, hd]
    · unfold getCustomSoundUrl at h ⊢
      simp only [hget, hc] at h ⊢
      simp only [Bool.false_eq_true, if_false] at h ⊢
      split
      · rename_i hp
        simp only [Bool.and_eq_true] at hp
        cases hb : st.extensionBaseUrl with
        | none => simp [hb, strTruthy] at hp
        | some b =>
          have hbne : b ≠ "" := by simpa [hb, strTruthy] using hp.2
          have : b.data ≠ [] := fun hnil => hbne (String.ext hnil)
          simp [JsValue.truthy, String.ext_iff, this]
      · rename_i hp
        simp [hp] at h
  | inherited n => simp [getCustomSoundUrl, hget] at h
  | absent => simp [getCustomSoundUrl, hget] at h

theorem reachable_scenarioState : Reachable scenarioState :=
  Reachable.init scenarioConfig exampleScripts scenarioState (by decide)

theorem reachable_emptyIdState : Reachable emptyIdState :=
  Reachable.init emptyIdConfig exampleScripts emptyIdState (by decide)

/-! ## The `Audio` constructor (C3) -/

/-- C3 (amended): in every reachable state and for every source argument `src`, the
overridden `Audio` constructor hands to the original constructor the replacement
`getCustomSoundUrl(getSoundIdFromUrl(src))` when `getSoundIdFromUrl(src)` is a non-empty
identifier and `getCustomSoundUrl` of it is not `null`, and hands `src` unchanged when the
identifier is `null` or empty or the replacement is `null`. -/
theorem Audio_hands_replacement_or_source (pathnameOf : String → Option String)
    (st : State) (src : JsValue) (hst : Reachable st) :
    (∀ soundId, getSoundIdFromUrl pathnameOf st.pathToId src = some soundId → soundId ≠ "" →
        (getCustomSoundUrl st soundId).1 ≠ .null →
        (Audio pathnameOf st src).1 = (getCustomSoundUrl st soundId).1)
    ∧ (getSoundIdFromUrl pathnameOf st.pathToId src = none
        ∨ getSoundIdFromUrl pathnameOf st.pathToId src = some ""
        ∨ (∃ soundId, getSoundIdFromUrl pathnameOf st.pathToId src = some soundId
            ∧ (getCustomSoundUrl st soundId).1 = .null) →
        (Audio pathnameOf st src).1 = src) := by
  have hinv := cacheInv_of_reachable st hst
  constructor
  · intro soundId hid hne hnull
    have ht := getCustomSoundUrl_truthy st soundId hinv hnull
    simp [Audio, hid, hne, ht]
  · rintro (h | h | ⟨soundId, hid, hnull⟩)
    · simp [Audio, h]
    · simp [Audio, h]
    · by_cases hne : soundId = ""
      · simp [Audio, hid, hne]
      · simp [Audio, hid, hne, hnull, JsValue.truthy]

/-- Witness of C3 (amended), the scenario of the specification: with the scenario
configuration and the source `https://host/client/incoming.mp3` the constructor is handed the
`data:` URI. -/
theorem Audio_hands_replacement_or_source_witness :
    Reachable scenarioState
    ∧ getSoundIdFromUrl examplePathname scenarioState.pathToId
        (.string "https://host/client/incoming.mp3") = some "incoming"
    ∧ (Audio examplePathname scenarioState (.string "https://host/client/incoming.mp3")).1
        = .string "data:audio/mp3;base64,AAAA" :=
  ⟨reachable_scenarioState, by decide,
   ((Audio_hands_replacement_or_source examplePathname scenarioState
      (.string "https://host/client/incoming.mp3") reachable_scenarioState).1 "incoming"
      (by decide) (by decide)
      (by
        rw [show (getCustomSoundUrl scenarioState "incoming").1
          = .string "data:audio/mp3;base64,AAAA" from rfl]
        simp)).trans rfl⟩

/-- Counterexample to C3 as stated: with the empty string as sound identifier both
resolution steps return a non-null value, yet the constructor is handed `src` unchanged. -/
theorem Audio_empty_identifier_counterexample :
    Reachable emptyIdState
    ∧ getSoundIdFromUrl examplePathname emptyIdState.pathToId
        (.string "https://host/client/incoming.mp3") = some ""
    ∧ (getCustomSoundUrl emptyIdState "").1 = .string "data:audio/mp3;base64,AAAA"
    ∧ (Audio examplePathname emptyIdState (.string "https://host/client/incoming.mp3")).1
        = .string "https://host/client/incoming.mp3" :=
  ⟨reachable_emptyIdState, by decide, rfl, rfl⟩

/-! ## The source resolver (C4, C5) -/

/-- C4 (amended): in every state and for every sound identifier that is absent from
`config.sounds`, `getCustomSoundUrl` returns `null` and leaves the state unchanged; the
`enabled` flag is tested by initialization only, where a disabled configuration installs
nothing. -/
theorem getCustomSoundUrl_null_when_absent :
    (∀ (st : State) (soundId : String), List.lookup soundId st.config.sounds = none →
        getCustomSoundUrl st soundId = (.null, st))
    ∧ (∀ (config : Config) (scripts : List String), config.enabled = false →
        init config scripts = none) := by
  constructor
  · intro st soundId h
    unfold getCustomSoundUrl JsObject.get
    rw [h]
    by_cases hk : soundId ∈ objectPrototypeMembers <;> simp [hk]
  · intro config scripts h
    simp [init, h]

/-- Witness of C4 (amended): the scenario state has no sound `doorchime`, and the scenario
configuration switched off does not initialize. -/
theorem getCustomSoundUrl_null_when_absent_witness :
    List.lookup "doorchime" scenarioState.config.sounds = none
    ∧ getCustomSoundUrl scenarioState "doorchime" = (.null, scenarioState)
    ∧ init { scenarioConfig with enabled := false } exampleScripts = none :=
  ⟨by decide,
   getCustomSoundUrl_null_when_absent.1 scenarioState "doorchime" (by decide),
   getCustomSoundUrl_null_when_absent.2 { scenarioConfig with enabled := false }
     exampleScripts rfl⟩

/-- Counterexample to C4 as stated: after a valid live update that sets `enabled` to
`false`, the state is reachable, the flag is `false`, and `getCustomSoundUrl` still returns
the custom data of the sound `incoming`. -/
theorem getCustomSoundUrl_disabled_counterexample :
    Reachable (onMessage scenarioState disableEvent)
    ∧ (onMessage scenarioState disableEvent).config.enabled = false
    ∧ (getCustomSoundUrl (onMessage scenarioState disableEvent) "incoming").1
        = .string "data:audio/mp3;base64,AAAA" :=
  ⟨Reachable.message _ _ reachable_scenarioState, by decide, rfl⟩

/-- C5: for every sound whose configured mode is `original`, `getCustomSoundUrl` returns
`null` and leaves the state unchanged, whatever `customData`, `presetFile`, the extension
base URL and the cache hold. -/
theorem getCustomSoundUrl_original_null (st : State) (soundId : String) (sc : SoundConfig)
    (hsc : List.lookup soundId st.config.sounds = some sc) (hmode : sc.mode = "original") :
    getCustomSoundUrl st soundId = (.null, st) := by
  have hget := (get_eq_own st.config.sounds soundId sc).2 hsc
  simp [getCustomSoundUrl, hget, hmode]

/-- Witness of C5: a sound in mode `original` with custom data, a preset file and a stale
cache entry resolves to `null`. -/
theorem getCustomSoundUrl_original_null_witness :
    revertedSound.customData = some "data:audio/mp3;base64,AAAA"
    ∧ revertedState.customSoundCache = [("incoming", "data:audio/mp3;base64,AAAA")]
    ∧ getCustomSoundUrl revertedState "incoming" = (.null, revertedState) :=
  ⟨rfl, rfl,
   getCustomSoundUrl_original_null revertedState "incoming" revertedSound (by decide) rfl⟩

theorem reachable_constructorState : Reachable constructorState :=
  Reachable.init constructorConfig exampleScripts constructorState (by decide)

/-- What the listener does with a message that passes every guard. -/
theorem onMessage_valid (st : State) (event : MessageEvent) (data : MessageData)
    (update : ConfigUpdate) (hwin : event.sourceIsWindow = true)
    (hdata : event.data = some data) (hsrc : data.source = some discriminator)
    (htype : data.type = some "CONFIG_UPDATED") (hcfg : data.config = some update) :
    onMessage st event
      = { st with
          config := objectAssign st.config update
          pathToId := buildPathToId (objectAssign st.config update).sounds
          customSoundCache := [] } := by
  simp [onMessage, hwin, hdata, hsrc, htype, hcfg]

/-! ## The source resolver in mode `custom` and `preset` (C6, C7) -/

/-- For a sound in mode `custom` with non-empty `customData` whose identifier is not the
name of a member inherited from `Object.prototype`, `getCustomSoundUrl` returns the cached
value when one is cached, and otherwise returns `customData` and stores it under the
identifier. -/
theorem getCustomSoundUrl_custom_caches (st : State) (s : String) (sc : SoundConfig)
    (d : String) (hsc : List.lookup s st.config.sounds = some sc) (hmode : sc.mode = "custom")
    (hdata : sc.customData = some d) (hd : d ≠ "") (hs : s ∉ objectPrototypeMembers) :
    (∀ v, List.lookup s st.customSoundCache = some v → v ≠ "" →
        getCustomSoundUrl st s = (.string v, st))
    ∧ (List.lookup s st.customSoundCache = none →
        getCustomSoundUrl st s
          = (.string d, { st with customSoundCache := JsObject.set st.customSoundCache s d })
        ∧ List.lookup s (getCustomSoundUrl st s).2.customSoundCache = some d) := by
  have hget := (get_eq_own st.config.sounds s sc).2 hsc
  constructor
  · intro v hv hne
    simp [getCustomSoundUrl, hget, hmode, hdata, strTruthy, hd, cacheRead_own _ s v hv,
      JsValue.truthy, hne]
  · intro hnone
    have h1 : cacheRead st.customSoundCache s = .undefined := by
      simp [cacheRead_none _ s hnone, hs]
    have h2 : getCustomSoundUrl st s
        = (.string d, { st with customSoundCache := JsObject.set st.customSoundCache s d }) := by
      simp [getCustomSoundUrl, hget, hmode, hdata, strTruthy, hd, h1, JsValue.truthy,
        assign_eq_set _ s d hs, cacheRead_own _ s d (lookup_set_self _ s d)]
    refine ⟨h2, ?_⟩
    rw [h2]
    exact lookup_set_self _ s d

/-- C6 (code at the failing input): for the sound `constructor` in mode `custom`, with an
empty cache, `getCustomSoundUrl` returns the member `constructor` that the cache object
inherits from `Object.prototype`, not `customData`, and stores nothing. -/
theorem getCustomSoundUrl_inherited_member :
    Reachable constructorState
    ∧ constructorState.config.enabled = true
    ∧ List.lookup "constructor" constructorState.config.sounds = some scenarioSound
    ∧ scenarioSound.mode = "custom"
    ∧ scenarioSound.customData = some "data:audio/mp3;base64,AAAA"
    ∧ constructorState.customSoundCache = []
    ∧ getCustomSoundUrl constructorState "constructor"
        = (.object "Object.prototype.constructor", constructorState) :=
  ⟨reachable_constructorState, rfl, by decide, rfl, rfl, rfl, rfl⟩

/-- C7: for every sound identifier `s` in mode `preset` with a non-empty `presetFile` `f`,
when the extension base URL is a non-empty string `b`, `getCustomSoundUrl(s)` is `b`
followed by `sounds/`, `s`, `/` and `encodeURIComponent(f)`; when the base URL is `null`
(or empty) it is `null`. -/
theorem getCustomSoundUrl_preset (st : State) (s : String) (sc : SoundConfig) (f : String)
    (hsc : List.lookup s st.config.sounds = some sc) (hmode : sc.mode = "preset")
    (hfile : sc.presetFile = some f) (hf : f ≠ "") :
    (∀ b, st.extensionBaseUrl = some b → b ≠ "" →
        getCustomSoundUrl st s
          = (.string (b ++ "sounds/" ++ s ++ "/" ++ encodeURIComponent f), st))
    ∧ (st.extensionBaseUrl = none ∨ st.extensionBaseUrl = some "" →
        getCustomSoundUrl st s = (.null, st)) := by
  have hget := (get_eq_own st.config.sounds s sc).2 hsc
  constructor
  · intro b hb hbne
    simp [getCustomSoundUrl, hget, hmode, hfile, hb, strTruthy, hf, hbne]
  · rintro (hb | hb) <;> simp [getCustomSoundUrl, hget, hmode, hfile, hb, strTruthy]

/-- Witness of C7, the preset scenario of the specification: the sound `doorchime` with
preset file `chime1.mp3` resolves to `<base>sounds/doorchime/chime1.mp3`, and to `null`
without a base URL. -/
theorem getCustomSoundUrl_preset_witness :
    getExtensionBaseUrl exampleScripts = some "chrome-extension://abcdef/"
    ∧ getCustomSoundUrl presetState "doorchime"
        = (.string "chrome-extension://abcdef/sounds/doorchime/chime1.mp3", presetState)
    ∧ getCustomSoundUrl { presetState with extensionBaseUrl := none } "doorchime"
        = (.null, { presetState with extensionBaseUrl := none }) :=
  ⟨by decide,
   (getCustomSoundUrl_preset presetState "doorchime" presetSound "chime1.mp3" (by decide)
      rfl rfl (by decide)).1 "chrome-extension://abcdef/" rfl (by decide),
   (getCustomSoundUrl_preset { presetState with extensionBaseUrl := none } "doorchime"
      presetSound "chime1.mp3" (by decide) rfl rfl (by decide)).2 (Or.inl rfl)⟩

/-- The file name is percent-encoded: a space and a non-ASCII letter are escaped. -/
theorem encodeURIComponent_example :
    encodeURIComponent "chime 1é.mp3" = "chime%201%C3%A9.mp3" := by decide

/-! ## Live reconfiguration (C8, C9, C10) -/

/-- C8 (amended): for every state and every valid `CONFIG_UPDATED` message whose
configuration carries `sounds` in which the sound `s` has the non-empty path `pNew` (other
than `__proto__`), after the listener has handled the message a URL whose pathname is `pOld`
does not resolve to `s`, provided no indexed path of `s` in the new configuration is a
suffix of `pOld`, and a non-empty URL whose pathname is `pNew` resolves to `s`, provided no
other sound of the new configuration has an indexed path that is a suffix of `pNew`. -/
theorem onMessage_replaces_path (pathnameOf : String → Option String) (st : State)
    (event : MessageEvent) (data : MessageData) (update : ConfigUpdate)
    (sounds : JsObject SoundConfig) (s : String) (sc : SoundConfig)
    (pOld pNew uOld uNew : String)
    (hwin : event.sourceIsWindow = true) (hdata : event.data = some data)
    (hsrc : data.source = some discriminator) (htype : data.type = some "CONFIG_UPDATED")
    (hcfg : data.config = some update) (hsounds : update.sounds = some sounds)
    (hs : (s, sc) ∈ sounds) (hpath : sc.path = some pNew) (hne : pNew ≠ "")
    (hproto : pNew ≠ "__proto__")
    (hOld : pathnameOf uOld = some pOld) (hNew : pathnameOf uNew = some pNew)
    (huNew : uNew ≠ "")
    (hgone : ∀ sc2 q, (s, sc2) ∈ sounds → sc2.indexes q → endsWith pOld q = false)
    (hunique : ∀ t tc q, (t, tc) ∈ sounds → tc.indexes q → endsWith pNew q = true → t = s) :
    getSoundIdFromUrl pathnameOf (onMessage st event).pathToId (.string uOld) ≠ some s
    ∧ getSoundIdFromUrl pathnameOf (onMessage st event).pathToId (.string uNew) = some s := by
  have hidx : (onMessage st event).pathToId = buildPathToId sounds := by
    rw [onMessage_valid st event data update hwin hdata hsrc htype hcfg]
    simp [objectAssign, hsounds]
  rw [hidx]
  constructor
  · intro hres
    obtain ⟨u, pn, sc2, q, hu, hpn, hsc2, hq, hends⟩ :=
      getSoundIdFromUrl_sound pathnameOf sounds _ s hres
    have hu2 : u = uOld := by
      simpa [urlStrOf] using hu.symm
    subst hu2
    rw [hOld] at hpn
    cases hpn
    rw [hgone sc2 q hsc2 hq] at hends
    exact Bool.false_ne_true hends
  · rw [getSoundIdFromUrl_string pathnameOf _ uNew pNew huNew hNew]
    obtain ⟨v, hv⟩ :=
      buildPathToId_hasKey sounds s sc pNew hs (Or.inl ⟨hpath, hne⟩) hproto
    obtain ⟨e, hfind, hmem, hends⟩ :=
      index_find_some _ pNew pNew v hv (endsWith_of_eq pNew pNew rfl)
    obtain ⟨tc, htc, hq⟩ := buildPathToId_sound sounds e.1 e.2 hmem
    rw [hfind]
    simp [hunique e.2 tc e.1 htc hq hends]

/-- Witness of C8 (amended): the scenario path `/client/incoming.mp3` is replaced by
`/client/ring.mp3`; the old URL stops resolving to `incoming` and the new one resolves. -/
theorem onMessage_replaces_path_witness :
    getSoundIdFromUrl examplePathname scenarioState.pathToId
        (.string "https://host/client/incoming.mp3") = some "incoming"
    ∧ getSoundIdFromUrl examplePathname
        (onMessage scenarioState (updateEvent renamePathUpdate)).pathToId
        (.string "https://host/client/incoming.mp3") ≠ some "incoming"
    ∧ getSoundIdFromUrl examplePathname
        (onMessage scenarioState (updateEvent renamePathUpdate)).pathToId
        (.string "https://host/client/ring.mp3") = some "incoming" :=
  ⟨by decide,
   onMessage_replaces_path examplePathname scenarioState (updateEvent renamePathUpdate)
    { source := some discriminator, type := some "CONFIG_UPDATED",
      config := some renamePathUpdate }
    renamePathUpdate
    [("incoming", { scenarioSound with path := some "/client/ring.mp3" })] "incoming"
    { scenarioSound with path := some "/client/ring.mp3" }
    "/client/incoming.mp3" "/client/ring.mp3" "https://host/client/incoming.mp3"
    "https://host/client/ring.mp3" rfl rfl rfl rfl rfl rfl (by decide) rfl (by decide)
    (by decide) (by decide) (by decide) (by decide)
    (by
      intro sc2 q hsc2 hq
      simp only [List.mem_singleton, Prod.mk.injEq, true_and] at hsc2
      subst hsc2
      rcases hq with ⟨hq, _⟩ | ⟨ps, hps, _⟩
      · have hq2 : q = "/client/ring.mp3" := by simpa [scenarioSound] using hq.symm
        subst hq2
        decide
      · simp [scenarioSound] at hps)
    (by
      intro t tc q ht _ _
      simp only [List.mem_singleton, Prod.mk.injEq] at ht
      exact ht.1)⟩

/-- Counterexample to C8 as stated: a valid update replaces the path `/client/incoming.mp3`
of the sound `incoming` by the different path `incoming.mp3`; a URL whose pathname is the
old path still resolves to `incoming`, because the old path ends with the new one. -/
theorem onMessage_old_path_counterexample :
    List.lookup "incoming" scenarioState.config.sounds = some scenarioSound
    ∧ scenarioSound.path = some "/client/incoming.mp3"
    ∧ List.lookup "incoming"
        (onMessage scenarioState (updateEvent shortenPathUpdate)).config.sounds
        = some { scenarioSound with path := some "incoming.mp3" }
    ∧ examplePathname "https://host/client/incoming.mp3" = some "/client/incoming.mp3"
    ∧ getSoundIdFromUrl examplePathname
        (onMessage scenarioState (updateEvent shortenPathUpdate)).pathToId
        (.string "https://host/client/incoming.mp3") = some "incoming" :=
  ⟨by decide, rfl, by decide, by decide, by decide⟩

/-- In every state reachable from initialization by resolutions and live updates the cache
is a pure memoization: `getCustomSoundUrl(s)` returns exactly what it returns with an empty
cache.  After a valid update the cache is empty, and a sound that the update configures in
mode `custom` with non-empty `customData` `d` resolves to `d` unless its identifier names an
inherited member of the cache object, in which case it resolves to that member; it never
resolves to an older cached value. -/
theorem customSoundCache_pure_memoization :
    (∀ (st : State) (s : String), Reachable st →
        (getCustomSoundUrl st s).1
          = (getCustomSoundUrl { st with customSoundCache := [] } s).1)
    ∧ (∀ (st : State) (event : MessageEvent) (data : MessageData) (update : ConfigUpdate)
        (sounds : JsObject SoundConfig) (s : String) (sc : SoundConfig) (d : String),
        Reachable st → event.sourceIsWindow = true → event.data = some data →
        data.source = some discriminator → data.type = some "CONFIG_UPDATED" →
        data.config = some update → update.sounds = some sounds →
        List.lookup s sounds = some sc → sc.mode = "custom" → sc.customData = some d →
        d ≠ "" →
        (onMessage st event).customSoundCache = []
        ∧ (getCustomSoundUrl (onMessage st event) s).1
            = if s ∈ objectPrototypeMembers then .object ("Object.prototype." ++ s)
              else .string d) := by
  constructor
  · intro st s hst
    exact getCustomSoundUrl_cache_irrelevant st s (cacheInv_of_reachable st hst)
  · intro st event data update sounds s sc d hst hwin hdata hsrc htype hcfg hsounds hsc
      hmode hcd hd
    have hinv := cacheInv_of_reachable _ (Reachable.message st event hst)
    have hvalid := onMessage_valid st event data update hwin hdata hsrc htype hcfg
    constructor
    · rw [hvalid]
    · apply getCustomSoundUrl_custom _ s sc d hinv _ hmode hcd hd
      rw [hvalid]
      simpa [objectAssign, hsounds] using hsc

/-- An instance of the memoization property: the scenario sound is resolved (which fills the
cache), then a live update replaces its custom data; the next resolution returns the new
data. -/
theorem customSoundCache_pure_memoization_witness :
    (getCustomSoundUrl scenarioState "incoming").2.customSoundCache
        = [("incoming", "data:audio/mp3;base64,AAAA")]
    ∧ (getCustomSoundUrl
        (onMessage (getCustomSoundUrl scenarioState "incoming").2 (updateEvent newDataUpdate))
        "incoming").1 = .string "data:audio/mp3;base64,BBBB" :=
  ⟨by decide,
   ((customSoundCache_pure_memoization.2 (getCustomSoundUrl scenarioState "incoming").2
      (updateEvent newDataUpdate)
      { source := some discriminator, type := some "CONFIG_UPDATED",
        config := some newDataUpdate }
      newDataUpdate
      [("incoming", { scenarioSound with customData := some "data:audio/mp3;base64,BBBB" })]
      "incoming" { scenarioSound with customData := some "data:audio/mp3;base64,BBBB" }
      "data:audio/mp3;base64,BBBB"
      (Reachable.resolve _ _ reachable_scenarioState) rfl rfl rfl rfl rfl rfl (by decide)
      rfl rfl (by decide)).2).trans (if_neg (by decide))⟩

/-- C9 (code at the failing input): the sound `constructor` is configured in mode `custom`,
and a valid live update replaces its custom data by a new non-empty value; the cache is
empty after the update, yet the next resolution returns the member `constructor` that the
cache object inherits from `Object.prototype`, not the new custom data. -/
theorem getCustomSoundUrl_after_update_inherited_member :
    Reachable (onMessage constructorState (updateEvent constructorDataUpdate))
    ∧ List.lookup "constructor" constructorState.config.sounds = some scenarioSound
    ∧ List.lookup "constructor"
        (onMessage constructorState (updateEvent constructorDataUpdate)).config.sounds
        = some { scenarioSound with customData := some "data:audio/mp3;base64,BBBB" }
    ∧ (onMessage constructorState (updateEvent constructorDataUpdate)).customSoundCache = []
    ∧ (getCustomSoundUrl (onMessage constructorState (updateEvent constructorDataUpdate))
        "constructor").1 = .object "Object.prototype.constructor"
    ∧ (getCustomSoundUrl (onMessage constructorState (updateEvent constructorDataUpdate))
        "constructor").1 ≠ .string "data:audio/mp3;base64,BBBB" := by
  refine ⟨Reachable.message _ _ reachable_constructorState, by decide, by decide, by decide,
    rfl, ?_⟩
  rw [show (getCustomSoundUrl (onMessage constructorState (updateEvent constructorDataUpdate))
    "constructor").1 = .object "Object.prototype.constructor" from rfl]
  simp

/-- C10: for every state and every message event whose source is not the window, or whose
data is missing, or whose `data.source` is not the discriminator, or whose type is not
`CONFIG_UPDATED`, or that carries no config, the listener leaves the configuration, the
index, the cache and the base URL unchanged. -/
theorem onMessage_ignores_foreign (st : State) (event : MessageEvent)
    (h : event.sourceIsWindow = false ∨ event.data = none
      ∨ ∃ data, event.data = some data
          ∧ (data.source ≠ some discriminator ∨ data.type ≠ some "CONFIG_UPDATED"
            ∨ data.config = none)) :
    onMessage st event = st := by
  unfold onMessage
  rcases h with h | h | ⟨data, hdata, h⟩
  · simp [h]
  · simp [h]
  · rw [hdata]
    rcases h with h | h | h
    · simp [h]
    · simp [h]
    · simp [h]

/-- Witness of C10, the scenario of the specification: a valid-looking payload sent from
another window leaves the state alone, while the same payload from the window is applied. -/
theorem onMessage_ignores_foreign_witness :
    foreignEvent.data = disableEvent.data
    ∧ onMessage scenarioState disableEvent ≠ scenarioState
    ∧ onMessage scenarioState foreignEvent = scenarioState :=
  ⟨rfl, by decide, onMessage_ignores_foreign scenarioState foreignEvent (Or.inl rfl)⟩

/-! ## Initialization from the embedded payload (C11) -/

/-- A payload text that `JSON.parse` rejects leaves the default configuration in place, and
the script returns at the `enabled` gate without raising. -/
theorem runScript_invalid_json (jsonParse : String → Option ParsedPayload) (text : String)
    (scripts : List String) (h : jsonParse text = none) :
    runScript jsonParse (some text) scripts = .disabled := by
  unfold runScript readConfig
  by_cases ht : text = ""
  · simp [ht, defaultConfig]
  · simp [ht, h, defaultConfig]

/-- A missing carrier element or attribute leaves the default configuration in place. -/
theorem runScript_no_payload (jsonParse : String → Option ParsedPayload)
    (scripts : List String) : runScript jsonParse none scripts = .disabled := by
  simp [runScript, readConfig, defaultConfig]

/-- The script reaches a running state exactly when the configuration read from the payload
is an object with a truthy `enabled` and a `sounds` mapping, and then the state is the one
of `init`. -/
theorem runScript_running_iff (jsonParse : String → Option ParsedPayload)
    (datasetConfig : Option String) (scripts : List String) (st : State) :
    runScript jsonParse datasetConfig scripts = .running st
      ↔ ∃ sounds, readConfig jsonParse datasetConfig = .object true (.mapping sounds)
          ∧ init { enabled := true, sounds := sounds } scripts = some st := by
  unfold runScript
  cases hcfg : readConfig jsonParse datasetConfig with
  | null => simp
  | primitive => simp
  | array => simp
  | object enabled sounds =>
    cases enabled with
    | false => simp
    | true =>
      cases sounds with
      | missing => simp
      | null => simp
      | mapping sounds =>
        simp only [Bool.not_true, Bool.false_eq_true, if_false, ParsedPayload.object.injEq,
          SoundsField.mapping.injEq, true_and, exists_eq_left']
        cases hinit : init { enabled := true, sounds := sounds } scripts with
        | none => simp
        | some st2 => simp

/-- A payload that is not a configuration object never installs the interception: the
script ends raised or disabled. -/
theorem runScript_malformed_not_running (jsonParse : String → Option ParsedPayload)
    (text : String) (scripts : List String) (value : ParsedPayload) (enabled : Bool)
    (hparse : jsonParse text = some value)
    (hvalue : value = .null ∨ value = .primitive ∨ value = .array
      ∨ value = .object enabled .missing ∨ value = .object enabled .null) :
    runScript jsonParse (some text) scripts = .raised
      ∨ runScript jsonParse (some text) scripts = .disabled := by
  unfold runScript readConfig
  by_cases ht : text = ""
  · simp [ht, defaultConfig]
  · rcases hvalue with h | h | h | h | h <;> subst h <;> cases enabled <;>
      simp [ht, hparse]

/-- C11 (code at the failing inputs): the payload texts `null`, `{"enabled":true}` and
`{"enabled":true,"sounds":null}` are valid JSON that is not a configuration object, and on
each of them the script ends with an uncaught `TypeError` instead of treating the
configuration as disabled. -/
theorem runScript_raises_on_malformed_payload :
    exampleJsonParse "null" = some .null
    ∧ runScript exampleJsonParse (some "null") exampleScripts = .raised
    ∧ exampleJsonParse "\x7b\"enabled\":true\x7d" = some (.object true .missing)
    ∧ runScript exampleJsonParse (some "\x7b\"enabled\":true\x7d") exampleScripts = .raised
    ∧ exampleJsonParse "\x7b\"enabled\":true,\"sounds\":null\x7d" = some (.object true .null)
    ∧ runScript exampleJsonParse (some "\x7b\"enabled\":true,\"sounds\":null\x7d")
        exampleScripts = .raised := by
  refine ⟨by decide, by decide, by decide, by decide, by decide, by decide⟩

/-! ## Lemmas on `Object.assign` -/

theorem lookup_mem {α : Type} (l : List (String × α)) (k : String) (v : α)
    (h : List.lookup k l = some v) : (k, v) ∈ l := by
  induction l with
  | nil => simp at h
  | cons e es ih =>
    obtain ⟨k1, v1⟩ := e
    rw [List.lookup_cons] at h
    cases hk : k == k1 with
    | true =>
      rw [hk] at h
      have hk1 : k = k1 := by simpa using hk
      cases h
      simp [hk1]
    | false =>
      rw [hk] at h
      exact List.mem_cons_of_mem _ (ih h)

theorem lookup_none_of_not_mem {α : Type} (l : List (String × α)) (k : String)
    (h : ∀ v, (k, v) ∉ l) : List.lookup k l = none := by
  cases hl : List.lookup k l with
  | none => rfl
  | some v => exact absurd (lookup_mem l k v hl) (h v)

theorem keys_functional {α : Type} (l : List (String × α)) (hkeys : (l.map Prod.fst).Nodup)
    (k : String) (v w : α) (hv : (k, v) ∈ l) (hw : (k, w) ∈ l) : v = w := by
  induction l with
  | nil => simp at hv
  | cons e es ih =>
    simp only [List.map_cons, List.nodup_cons, List.mem_map, not_exists, not_and] at hkeys
    rcases List.mem_cons.1 hv with hv | hv <;> rcases List.mem_cons.1 hw with hw | hw
    · rw [← hv] at hw
      exact (Prod.mk.inj hw).2.symm
    · exact absurd (by rw [← hv]) (hkeys.1 (k, w) hw)
    · exact absurd (by rw [← hw]) (hkeys.1 (k, v) hv)
    · exact ih hkeys.2 hv hw

theorem lookup_foldl_set_none (l : List (String × JsValue)) (acc : JsObject JsValue)
    (k : String) (h : ∀ v, (k, v) ∉ l) :
    List.lookup k (l.foldl
      (fun acc e => if e.1 == "__proto__" then acc else JsObject.set acc e.1 e.2) acc)
      = List.lookup k acc := by
  induction l generalizing acc with
  | nil => rfl
  | cons e es ih =>
    have hes : ∀ v, (k, v) ∉ es := fun v hv => h v (List.mem_cons_of_mem _ hv)
    have hne : k ≠ e.1 := by
      intro hk
      exact h e.2 (by rw [hk]; exact List.mem_cons_self _ _)
    rw [List.foldl_cons, ih _ hes]
    split
    · rfl
    · exact lookup_set_ne acc e.1 k e.2 hne

theorem lookup_foldl_set_some (l : List (String × JsValue)) (acc : JsObject JsValue)
    (k : String) (v : JsValue) (hk : k ≠ "__proto__") (hv : (k, v) ∈ l)
    (hfun : ∀ w, (k, w) ∈ l → w = v) :
    List.lookup k (l.foldl
      (fun acc e => if e.1 == "__proto__" then acc else JsObject.set acc e.1 e.2) acc)
      = some v := by
  induction l generalizing acc with
  | nil => simp at hv
  | cons e es ih =>
    rw [List.foldl_cons]
    by_cases hex : ∃ w, (k, w) ∈ es
    · obtain ⟨w, hw⟩ := hex
      have hwv : w = v := hfun w (List.mem_cons_of_mem _ hw)
      exact ih _ (hwv ▸ hw) (fun w2 hw2 => hfun w2 (List.mem_cons_of_mem _ hw2))
    · have hes : ∀ w, (k, w) ∉ es := fun w hw => hex ⟨w, hw⟩
      have he : e = (k, v) := by
        rcases List.mem_cons.1 hv with h | h
        · exact h.symm
        · exact absurd h (hes v)
      rw [lookup_foldl_set_none es _ k hes, he]
      have hkp : (k == "__proto__") = false := by simpa using hk
      simp only [hkp, Bool.false_eq_true, if_false]
      exact lookup_set_self acc k v

/-- A copy made by `Object.assign({}, options)` reads as the original at every key other
than `__proto__`. -/
theorem lookup_assignAll (opts : JsObject JsValue) (hkeys : (opts.map Prod.fst).Nodup)
    (k : String) (hk : k ≠ "__proto__") :
    List.lookup k (assignAll [] opts) = List.lookup k opts := by
  unfold assignAll
  cases hl : List.lookup k opts with
  | some v =>
    have hmem := lookup_mem opts k v hl
    apply lookup_foldl_set_some _ _ k v hk ((mem_entries _ _).2 hmem)
    intro w hw
    exact keys_functional opts hkeys k w v ((mem_entries _ _).1 hw) hmem
  | none =>
    have hnot : ∀ v, (k, v) ∉ opts := by
      intro v hv
      have := List.lookup_eq_none_iff.1 hl (k, v) hv
      simp at this
    rw [lookup_foldl_set_none _ _ k (fun v hv => hnot v ((mem_entries _ _).1 hv))]
    rfl

/-- The second step of the call on line 187: the properties `src` and `format` are set. -/
theorem assignAll_patch (o : JsObject JsValue) (x y : JsValue) :
    assignAll o [("src", x), ("format", y)]
      = JsObject.set (JsObject.set o "src" x) "format" y := rfl

/-- What the wrapper hands on when the first source resolves to a replacement. -/
theorem Howl_resolved (pathnameOf : String → Option String) (st : State) (opts : HowlOptions)
    (srcVal : JsValue) (soundId : String)
    (hsrc : List.lookup "src" opts = some srcVal) (htruthy : srcVal.truthy = true)
    (hid : getSoundIdFromUrl pathnameOf st.pathToId ((srcArrayOf srcVal).headD .undefined)
      = some soundId)
    (hne : soundId ≠ "") (hr : (getCustomSoundUrl st soundId).1.truthy = true) :
    (Howl pathnameOf st (some opts)).1
      = some (JsObject.set (JsObject.set (assignAll [] opts) "src"
          (.array [(getCustomSoundUrl st soundId).1])) "format" howlFormats) := by
  unfold Howl
  simp only [hsrc, Option.getD_some, htruthy, if_true]
  rw [hid]
  simp [hne, hr, assignAll_patch]

/-! ## The `Howl` constructor (C12) -/

/-- C12 (amended): for every options object whose first source resolves to a replacement `r`
(a non-empty identifier whose replacement is truthy), the wrapped `Howl` constructor passes
to the original constructor options whose `src` is the one-entry list `[r]`, whose `format`
is `[mp3, wav, ogg, webm]`, and whose every other own field (the key `__proto__` apart)
equals the caller's; when the first source does not resolve, the caller's options are
passed through unchanged. -/
theorem Howl_passes_single_replacement (pathnameOf : String → Option String) (st : State) :
    (∀ (opts : HowlOptions) (srcVal : JsValue) (soundId : String),
        (opts.map Prod.fst).Nodup →
        List.lookup "src" opts = some srcVal → srcVal.truthy = true →
        getSoundIdFromUrl pathnameOf st.pathToId ((srcArrayOf srcVal).headD .undefined)
          = some soundId →
        soundId ≠ "" → (getCustomSoundUrl st soundId).1.truthy = true →
        ∃ passed, (Howl pathnameOf st (some opts)).1 = some passed
          ∧ List.lookup "src" passed = some (.array [(getCustomSoundUrl st soundId).1])
          ∧ List.lookup "format" passed = some howlFormats
          ∧ ∀ k, k ≠ "src" → k ≠ "format" → k ≠ "__proto__" →
              List.lookup k passed = List.lookup k opts)
    ∧ (∀ (options : Option HowlOptions),
        (options = none
          ∨ ∃ opts, options = some opts
              ∧ (((List.lookup "src" opts).getD .undefined).truthy = false
                ∨ getSoundIdFromUrl pathnameOf st.pathToId
                    ((srcArrayOf ((List.lookup "src" opts).getD .undefined)).headD .undefined)
                    = none
                ∨ getSoundIdFromUrl pathnameOf st.pathToId
                    ((srcArrayOf ((List.lookup "src" opts).getD .undefined)).headD .undefined)
                    = some ""
                ∨ ∃ soundId, getSoundIdFromUrl pathnameOf st.pathToId
                    ((srcArrayOf ((List.lookup "src" opts).getD .undefined)).headD .undefined)
                    = some soundId
                    ∧ (getCustomSoundUrl st soundId).1.truthy = false)) →
        (Howl pathnameOf st options).1 = options) := by
  constructor
  · intro opts srcVal soundId hkeys hsrc htruthy hid hne hr
    refine ⟨_, Howl_resolved pathnameOf st opts srcVal soundId hsrc htruthy hid hne hr,
      ?_, ?_, ?_⟩
    · rw [lookup_set_ne _ "format" "src" _ (by decide)]
      exact lookup_set_self _ _ _
    · exact lookup_set_self _ _ _
    · intro k h1 h2 h3
      rw [lookup_set_ne _ "format" k _ h2, lookup_set_ne _ "src" k _ h1]
      exact lookup_assignAll opts hkeys k h3
  · rintro options (h | ⟨opts, hopts, h⟩)
    · subst h
      rfl
    · subst hopts
      unfold Howl
      by_cases ht : ((List.lookup "src" opts).getD .undefined).truthy = true
      · simp only [ht, if_true]
        rcases h with h | h | h | ⟨soundId, hid, hr⟩
        · rw [ht] at h
          exact absurd h (by decide)
        · rw [h]
        · rw [h]
          simp
        · rw [hid]
          by_cases hne : soundId = ""
          · simp [hne]
          · simp [hne, hr]
      · simp [ht]

/-- Witness of C12 (amended): options with one source string for the scenario sound are
handed on with `src` equal to the one-entry list of the `data:` URI, the widened format
list and the caller's `loop`. -/
theorem Howl_passes_single_replacement_witness :
    ∃ passed, (Howl examplePathname scenarioState (some oneSourceOptions)).1 = some passed
      ∧ List.lookup "src" passed = some (.array [.string "data:audio/mp3;base64,AAAA"])
      ∧ List.lookup "format" passed = some howlFormats
      ∧ List.lookup "loop" passed = some (.boolean true) := by
  obtain ⟨passed, h1, h2, h3, h4⟩ :=
    (Howl_passes_single_replacement examplePathname scenarioState).1 oneSourceOptions
      (.string "https://host/client/incoming.mp3") "incoming" (by decide) rfl rfl
      (by decide) (by decide) rfl
  exact ⟨passed, h1, h2, h3, (h4 "loop" (by decide) (by decide) (by decide)).trans rfl⟩

/-- Counterexample to C12 as stated: for options with the two sources
`https://host/client/incoming.mp3` and `https://host/client/incoming.ogg`, the first of
which resolves to the `data:` URI, the wrapper hands on the one-entry list of the `data:`
URI, not the caller's list with its first entry rewritten. -/
theorem Howl_drops_other_sources_counterexample :
    List.lookup "src" twoSourceOptions
        = some (.array [.string "https://host/client/incoming.mp3",
            .string "https://host/client/incoming.ogg"])
    ∧ getSoundIdFromUrl examplePathname scenarioState.pathToId
        (.string "https://host/client/incoming.mp3") = some "incoming"
    ∧ (getCustomSoundUrl scenarioState "incoming").1 = .string "data:audio/mp3;base64,AAAA"
    ∧ (Howl examplePathname scenarioState (some twoSourceOptions)).1
        = some [("src", .array [.string "data:audio/mp3;base64,AAAA"]),
            ("volume", .number 1), ("format", howlFormats)]
    ∧ ((Howl examplePathname scenarioState (some twoSourceOptions)).1.bind
          (fun passed => List.lookup "src" passed))
        ≠ some (.array [.string "data:audio/mp3;base64,AAAA",
            .string "https://host/client/incoming.ogg"]) := by
  refine ⟨rfl, by decide, rfl, rfl, ?_⟩
  intro h
  have h2 : ((Howl examplePathname scenarioState (some twoSourceOptions)).1.bind
      (fun passed => List.lookup "src" passed))
      = some (.array [.string "data:audio/mp3;base64,AAAA"]) := rfl
  rw [h2] at h
  simp at h

/-! ## Waiting for Howler.js (C13) -/

theorem howlerInv_startHowler (available : Bool) : howlerInv (startHowler available) := by
  cases available <;> simp [startHowler, interceptHowler, howlerStart, howlerInv, maxAttempts]

theorem pollTick_idle (available : Bool) (h : HowlerState) (hp : h.polling = false) :
    pollTick available h = h := by
  simp [pollTick, hp]

theorem howlerInv_pollTick (available : Bool) (h : HowlerState) (hinv : howlerInv h) :
    howlerInv (pollTick available h) := by
  cases hp : h.polling with
  | false => rw [pollTick_idle available h hp]; exact hinv
  | true =>
    obtain ⟨h1, h2, h3, h4, h5⟩ := hinv
    obtain ⟨hw, ha, hl⟩ := h4 hp
    unfold maxAttempts at ha h1
    cases available with
    | true =>
      by_cases hmax : h.attempts + 1 ≥ 50
      · simp [pollTick, hp, interceptHowler, howlerInv, maxAttempts, hmax, hw, hl]
        omega
      · simp [pollTick, hp, interceptHowler, howlerInv, maxAttempts, hmax, hw, hl]
        omega
    | false =>
      by_cases hmax : h.attempts + 1 ≥ 50
      · simp [pollTick, hp, interceptHowler, howlerInv, maxAttempts, hmax, hw, hl]
        omega
      · simp [pollTick, hp, interceptHowler, howlerInv, maxAttempts, hmax, hw, hl]
        omega

/-- The invariant holds after any number of timer periods, on every schedule. -/
theorem howlerInv_runHowler (schedule : Nat → Bool) (n : Nat) :
    howlerInv (runHowler schedule n) := by
  induction n with
  | zero => exact howlerInv_startHowler (schedule 0)
  | succ n ih => exact howlerInv_pollTick (schedule (n + 1)) _ ih

/-- On every schedule the loop performs at most fifty attempts and the constructor is
wrapped at most once. -/
theorem runHowler_bounded (schedule : Nat → Bool) (n : Nat) :
    (runHowler schedule n).attempts ≤ 50 ∧ (runHowler schedule n).wraps ≤ 1 := by
  obtain ⟨h1, h2, _⟩ := howlerInv_runHowler schedule n
  exact ⟨h1, h2⟩

/-- Once the timer is cleared the state never changes again: no attempt, no wrap, no log. -/
theorem runHowler_stable (schedule : Nat → Bool) (n m : Nat) (hnm : n ≤ m)
    (hp : (runHowler schedule n).polling = false) :
    runHowler schedule m = runHowler schedule n := by
  induction m with
  | zero =>
    have : n = 0 := by omega
    rw [this]
  | succ m ih =>
    by_cases hm : n = m + 1
    · rw [hm]
    · have h1 := ih (by omega)
      show pollTick (schedule (m + 1)) (runHowler schedule m) = runHowler schedule n
      rw [h1]
      exact pollTick_idle _ _ hp

/-- A successful interception clears the timer, so no attempt follows it. -/
theorem runHowler_no_attempt_after_success (schedule : Nat → Bool) (n m : Nat) (hnm : n ≤ m)
    (hw : (runHowler schedule n).wraps = 1) :
    runHowler schedule m = runHowler schedule n := by
  apply runHowler_stable schedule n m hnm
  obtain ⟨_, _, _, h4, _⟩ := howlerInv_runHowler schedule n
  cases hp : (runHowler schedule n).polling with
  | false => rfl
  | true =>
    have := (h4 hp).1
    omega

/-- The fallback message is logged at most once, and only when the fiftieth attempt was
made. -/
theorem runHowler_log_at_budget (schedule : Nat → Bool) (n : Nat) :
    (runHowler schedule n).notFoundLogs ≤ 1
      ∧ (1 ≤ (runHowler schedule n).notFoundLogs → (runHowler schedule n).attempts = 50) := by
  obtain ⟨_, _, h3, _, h5⟩ := howlerInv_runHowler schedule n
  exact ⟨h3, h5⟩

set_option maxRecDepth 100000 in
/-- C13 (code at the failing input): on a schedule where `window.Howl` is undefined at
initialization and during the first forty-nine timer periods and defined at the fiftieth,
the fiftieth attempt wraps the constructor and the fallback message is logged all the same;
one period earlier nothing was wrapped or logged. -/
theorem runHowler_logs_not_found_after_success :
    (runHowler lateSchedule 49).wraps = 0
    ∧ (runHowler lateSchedule 49).polling = true
    ∧ (runHowler lateSchedule 49).notFoundLogs = 0
    ∧ lateSchedule 50 = true
    ∧ (runHowler lateSchedule 50).attempts = 50
    ∧ (runHowler lateSchedule 50).wraps = 1
    ∧ (runHowler lateSchedule 50).polling = false
    ∧ (runHowler lateSchedule 50).notFoundLogs = 1 := by
  refine ⟨by decide, by decide, by decide, by decide, by decide, by decide, by decide,
    by decide⟩

end RemoworkSoundChanger
